import Mathlib

/-!
# Verification of `translate.py` (doukutsu-translator)

A shallow embedding of the dialogue-translation script.  Python strings are
modelled as `List Char`; Python's dynamic JSON values as the inductive `Json`
(numbers restricted to integers — the corpus and the script only ever handle
strings, lists and objects); fallible Python code (code that can raise) is
modelled with `Option`; the external LLM service (the "Model Gateway") is
modelled as an oracle assigning to each call an outcome: a returned response
(text plus cost), a raised exception, or a user keyboard interrupt.  Costs are
modelled as integers (amounts in an arbitrarily fine currency unit; the
script only ever adds them).

The Python standard-library function `json.loads` is an external collaborator;
functions that call it take a parameter `loads : Str → Option Json` standing
for it.  A small concrete reference implementation `loads0` (a fuel-based
recursive-descent JSON reader) is provided to instantiate the oracle-style
theorems on concrete inputs.
-/

set_option maxHeartbeats 2000000
set_option maxRecDepth 20000

abbrev Str := List Char

/-- Python strings compare by `startswith`: `s.startswith(p)`. -/
def startsWith (p s : Str) : Bool := s.take p.length == p

/-- JSON values (numbers restricted to integers; the script's data is made of
strings, arrays and objects only). -/
inductive Json where
  | null : Json
  | bool : Bool → Json
  | num : Int → Json
  | str : Str → Json
  | arr : List Json → Json
  | obj : List (Str × Json) → Json
deriving Repr

/-- `type(s) == type([])` test from the shape validation. -/
def Json.isArr : Json → Bool
  | .arr _ => true
  | _ => false

/-- Python iteration (`enumerate(x)` / `for t in x`) over a JSON value:
lists yield their elements, dicts their keys, strings their characters
(as 1-character strings); other values raise `TypeError` (`none`). -/
def jsonElems : Json → Option (List Json)
  | .arr l => some l
  | .obj kvs => some (kvs.map (fun kv => Json.str kv.1))
  | .str s => some (s.map (fun c => Json.str [c]))
  | _ => none

/-- Python `len` on a JSON value (`TypeError` = `none`). -/
def jsonLen (j : Json) : Option Nat := (jsonElems j).map List.length

/-- Dict lookup `d[k]` (raises = `none` when the value is not a dict or the
key is missing). -/
def jGet (j : Json) (k : Str) : Option Json :=
  match j with
  | .obj kvs => (kvs.find? (fun kv => kv.1 == k)).map (·.2)
  | _ => none

/-- Dict update `d[k] = v` (replaces the first binding of `k`; appends when
absent, as Python dict assignment). -/
def jSet (j : Json) (k : Str) (v : Json) : Json :=
  match j with
  | .obj kvs =>
      if kvs.any (fun kv => kv.1 == k) then
        .obj (kvs.map (fun kv => if kv.1 == k then (kv.1, v) else kv))
      else
        .obj (kvs ++ [(k, v)])
  | other => other

/-! ## The Response Parser (`json_parse`, translate.py lines 30-34)

```python
def json_parse(s):
    if s.startswith("```json"):
        s = s[8:-3]
    parsed = json.loads(s)
    return parsed
```

Python's slice `s[8:-3]` keeps the characters at indices `8 .. len(s)-4`;
`loads` stands for the external `json.loads` (`none` = raised). -/

def fenceOpen : Str := "```json".toList

/-- Python `s[8:-3]`. -/
def pySlice8m3 (s : Str) : Str := (s.drop 8).take ((s.drop 8).length - 3)

def json_parse (loads : Str → Option Json) (s : Str) : Option Json :=
  if startsWith fenceOpen s then loads (pySlice8m3 s) else loads s

/-- Modelled from the spec: wrapping text in a markdown fenced code block
labeled as JSON (the spec's `wrap_in_fence`, which has no counterpart in the
source). -/
def wrap_in_fence (t : Str) : Str := "```json\n".toList ++ t ++ "\n```".toList

/-! ## A model of `json.dumps` (external library, used for prompt text)

Python's `json.dumps` with default options: `", "` and `": "` separators,
`ensure_ascii=True` escaping.  Only used to build prompt text, which the
script never inspects. -/

/-- Lowercase hex digit. -/
def hexDigit (n : Nat) : Char :=
  if n < 10 then Char.ofNat (48 + n) else Char.ofNat (87 + n)

/-- Four-digit lowercase hex, as in Python's `\uXXXX` escapes. -/
def hex4 (n : Nat) : Str :=
  [hexDigit (n / 4096 % 16), hexDigit (n / 256 % 16), hexDigit (n / 16 % 16), hexDigit (n % 16)]

/-- `json.dumps` escaping of one character (default `ensure_ascii=True`). -/
def jsonEscape (c : Char) : Str :=
  if c = '"' then ['\\', '"']
  else if c = '\\' then ['\\', '\\']
  else if c = '\n' then ['\\', 'n']
  else if c = '\r' then ['\\', 'r']
  else if c = '\t' then ['\\', 't']
  else if c.toNat = 8 then ['\\', 'b']
  else if c.toNat = 12 then ['\\', 'f']
  else if c.toNat < 32 ∨ c.toNat > 126 then
    if c.toNat < 65536 then '\\' :: 'u' :: hex4 c.toNat
    else
      let v := c.toNat - 65536
      ('\\' :: 'u' :: hex4 (55296 + v / 1024)) ++ ('\\' :: 'u' :: hex4 (56320 + v % 1024))
  else [c]

/-- A JSON string literal as `json.dumps` renders it. -/
def dumpStr (s : Str) : Str := '"' :: s.flatMap jsonEscape ++ ['"']

mutual
/-- `json.dumps` with default separators. -/
def dumps : Json → Str
  | .null => String.toList "null"
  | .bool b => String.toList (cond b "true" "false")
  | .num n => String.toList (toString n)
  | .str s => dumpStr s
  | .arr l => '[' :: dumpsList l ++ [']']
  | .obj kvs => Char.ofNat 123 :: dumpsObj kvs ++ [Char.ofNat 125]

def dumpsList : List Json → Str
  | [] => []
  | [x] => dumps x
  | x :: xs => dumps x ++ ", ".toList ++ dumpsList xs

def dumpsObj : List (Str × Json) → Str
  | [] => []
  | [kv] => dumpStr kv.1 ++ ": ".toList ++ dumps kv.2
  | kv :: kvs => dumpStr kv.1 ++ ": ".toList ++ dumps kv.2 ++ ", ".toList ++ dumpsObj kvs
end

/-- Python `str` of a list of ints (e.g. `str([2, 1]) = "[2, 1]"`), as
interpolated by the f-strings of the script (identical to `json.dumps` on a
list of ints). -/
def pyIntList (l : List Nat) : Str := '[' :: joinNats l ++ [']']
where
  joinNats : List Nat → Str
    | [] => []
    | [n] => (toString n).toList
    | n :: ns => (toString n).toList ++ ", ".toList ++ joinNats ns

/-! ## A concrete reference `json.loads` (`loads0`)

A fuel-based recursive-descent reader, used to instantiate on concrete
inputs the theorems that are generic in the external `loads`. -/

def isWs (c : Char) : Bool := c = ' ' ∨ c = '\n' ∨ c = '\t' ∨ c = '\r'

def skipWs (s : Str) : Str := s.dropWhile isWs

def isDigitCh (c : Char) : Bool := 48 ≤ c.toNat ∧ c.toNat ≤ 57

def digitsToNat (acc : Nat) : Str → Nat
  | [] => acc
  | c :: r => digitsToNat (acc * 10 + (c.toNat - 48)) r

/-- Read the escape tail of a JSON string literal (after a `\`). -/
def readEscape (s : Str) : Option (Char × Str) :=
  match s with
  | '"' :: r => some ('"', r)
  | '\\' :: r => some ('\\', r)
  | '/' :: r => some ('/', r)
  | 'n' :: r => some ('\n', r)
  | 'r' :: r => some ('\r', r)
  | 't' :: r => some ('\t', r)
  | 'b' :: r => some (Char.ofNat 8, r)
  | 'f' :: r => some (Char.ofNat 12, r)
  | 'u' :: a :: b :: c :: d :: r =>
      let hv : Char → Option Nat := fun x =>
        if isDigitCh x then some (x.toNat - 48)
        else if 97 ≤ x.toNat ∧ x.toNat ≤ 102 then some (x.toNat - 87)
        else if 65 ≤ x.toNat ∧ x.toNat ≤ 70 then some (x.toNat - 55)
        else none
      match hv a, hv b, hv c, hv d with
      | some x, some y, some z, some w => some (Char.ofNat (x * 4096 + y * 256 + z * 16 + w), r)
      | _, _, _, _ => none
  | _ => none

/-- Read a JSON string body up to the closing quote. -/
def readStr (fuel : Nat) (s : Str) : Option (Str × Str) :=
  match fuel, s with
  | 0, _ => none
  | _, [] => none
  | fuel + 1, c :: r =>
    if c = '"' then some ([], r)
    else if c = '\\' then
      match readEscape r with
      | some (e, r') => (readStr fuel r').map (fun p => (e :: p.1, p.2))
      | none => none
    else (readStr fuel r).map (fun p => (c :: p.1, p.2))

mutual
/-- Read one JSON value; returns the value and the unconsumed remainder. -/
def readVal (fuel : Nat) (s : Str) : Option (Json × Str) :=
  match fuel with
  | 0 => none
  | fuel + 1 =>
    match skipWs s with
    | 'n' :: 'u' :: 'l' :: 'l' :: r => some (.null, r)
    | 't' :: 'r' :: 'u' :: 'e' :: r => some (.bool true, r)
    | 'f' :: 'a' :: 'l' :: 's' :: 'e' :: r => some (.bool false, r)
    | '"' :: r => (readStr fuel r).map (fun p => (.str p.1, p.2))
    | '[' :: r =>
        (match skipWs r with
         | ']' :: r' => some (.arr [], r')
         | _ => (readItems fuel r).map (fun p => (.arr p.1, p.2)))
    | c :: r =>
        if c.toNat = 123 then
          (match skipWs r with
           | c' :: r' =>
              if c'.toNat = 125 then some (.obj [], r')
              else (readFields fuel r).map (fun p => (.obj p.1, p.2))
           | [] => none)
        else if c = '-' then
          (match r.span isDigitCh with
           | ([], _) => none
           | (ds, r') => some (.num (-(digitsToNat 0 ds : Int)), r'))
        else if isDigitCh c then
          (match (c :: r).span isDigitCh with
           | (ds, r') => some (.num (digitsToNat 0 ds), r'))
        else none
    | [] => none

/-- Read comma-separated array items and the closing `]`. -/
def readItems (fuel : Nat) (s : Str) : Option (List Json × Str) :=
  match fuel with
  | 0 => none
  | fuel + 1 =>
    match readVal fuel s with
    | none => none
    | some (v, r) =>
      match skipWs r with
      | ',' :: r' => (readItems fuel r').map (fun p => (v :: p.1, p.2))
      | ']' :: r' => some ([v], r')
      | _ => none

/-- Read comma-separated `"key": value` fields and the closing `}`. -/
def readFields (fuel : Nat) (s : Str) : Option (List (Str × Json) × Str) :=
  match fuel with
  | 0 => none
  | fuel + 1 =>
    match skipWs s with
    | '"' :: r =>
      (match readStr fuel r with
       | none => none
       | some (k, r1) =>
         match skipWs r1 with
         | ':' :: r2 =>
           (match readVal fuel r2 with
            | none => none
            | some (v, r3) =>
              match skipWs r3 with
              | ',' :: r4 => (readFields fuel r4).map (fun p => ((k, v) :: p.1, p.2))
              | c :: r4 => if c.toNat = 125 then some ([(k, v)], r4) else none
              | [] => none)
         | _ => none)
    | _ => none
end

/-- The concrete reference `json.loads`: parse one value, allow surrounding
whitespace, reject trailing garbage. -/
def loads0 (s : Str) : Option Json :=
  match readVal (s.length + 1) s with
  | some (v, r) => if skipWs r = [] then some v else none
  | none => none

/-! ## Data model (translate.py / spec section 6)

A `RawSpeech` is one speech object of the input document: a `character`
string and `text`, a list of Lines, each Line a (one-element) list holding
the line's text.  Line payloads are `Json` because the write-back step can
store arbitrary parsed JSON values into them.  A `Speech` is the reformatted
single-entry dict `{character: [line_text, ...]}` produced by
`format_dialogue` and consumed by `translate_dialogue`. -/

structure RawSpeech where
  character : Str
  text : List (List Json)
deriving Repr

/-- A Dialogue Block of the input document. -/
abbrev DialogueB := List RawSpeech

/-- One entry of the `files` collection. -/
structure DFile where
  dialogues : List DialogueB
deriving Repr

/-- The whole input document. -/
structure Document where
  files : List DFile
deriving Repr

/-- Reformatted speech `{character: [line_text, ...]}` (single-entry dict,
modelled as a structure). -/
structure Speech where
  character : Str
  lines : List Json
deriving Repr

/-- `format_dialogue` (translate.py lines 165-166):
`[{s['character']: [t[0] for t in s['text']]} for s in dl]`.
`t[0]` raises `IndexError` on an empty Line, hence `Option`. -/
def format_dialogue (dl : DialogueB) : Option (List Speech) :=
  dl.mapM (fun s => (s.text.mapM List.head?).map (fun ls => Speech.mk s.character ls))

/-- `data_summary` (translate.py lines 25-27):
`[{s["character"]: t[0]} for d in dialogues for s in d for t in s["text"]]`.
Each single-entry dict is modelled as a pair; `t[0]` raises on an empty
Line, hence `Option`. -/
def data_summary (data : DFile) : Option (List (Str × Json)) :=
  (data.dialogues.flatMap (fun d => d.flatMap (fun s => s.text.map (fun t => (s.character, t))))).mapM
    (fun ct => ct.2.head?.map (fun h => (ct.1, h)))

/-- A formatted speech as `json.dumps` sees it. -/
def Speech.toJson (s : Speech) : Json := .obj [(s.character, .arr s.lines)]

/-- A formatted dialogue as `json.dumps` sees it. -/
def dialogueToJson (dl : List Speech) : Json := .arr (dl.map Speech.toJson)

/-! ## Prompt construction (translate.py lines 20-22, 86-121, 147-154)

Transcribed from the source f-strings.  `{` and `}` are written `\x7b`,
`\x7d` and `'` is written `\x27`.  The source's `'...\r\Hoc...'` contains a
literal backslash (Python keeps invalid escapes), transcribed as `\r\\Hoc`. -/

def CONTEXT : Str :=
  "### CONTEXT\nYou are a translator for \x27Cave Story\x27 into Classical Latin.\n\n".toList

def segment_instructions (dialogue : List Speech) (pattern : List Nat) : Str :=
  ("**Segment**: Split the Latin translation back into segments. \n" ++
   "   - HARD CONSTRAINT: Each line must be under 34 characters if the portrait is \x27NP\x27, else under 27 characters.\n" ++
   "   - If a sentence or clause could fit under the constraint, don\x27t add unnecessary linebreaks.\n" ++
   "   - You may use standard Latin abbreviations (e.g., \x27n.\x27 for \x27non\x27, \x27est\x27 omitted) to fit the limit.\n" ++
   "   - Do not break words in half unless necessary (if necessary, use a hyphen).\n" ++
   "   - There must be exactly the same number of speeches as in the English. (").toList ++
  (toString dialogue.length).toList ++
  (")\n" ++
   "   - Each speech list must be broken up exactly like the English, and must contain exactly the same number of items as in the English. (").toList ++
  pyIntList pattern ++
  (")\n" ++
   "   - The line breaks within each item, however, may be adjusted (but must still use `\\r\\n` every time).\n" ++
   "   - Count your segmented version before outputting to ensure that it fits the constraints.\n").toList

def mkPrompt (terms styles guide : Json) (segIns : Str)
    (previous_dialogues : List (List Speech)) (dialogue : List Speech) : Str :=
  CONTEXT ++
  "### Global Glossary (Must Use)\n".toList ++ dumps terms ++ "\n\n".toList ++
  "### Character Styles\n".toList ++ dumps styles ++ "\n\n".toList ++
  "### Style Guide\n".toList ++ dumps guide ++ "\n\n".toList ++
  "### Example Input\n".toList ++
  "[\x7b\"Char1\": [\"I see.\r\nI can\x27t do this myself.\", \"Can you?\"]\x7d, \x7b\"Char2\": [\"Yes.\"]\x7d]\n\n".toList ++
  "### Example Output\n".toList ++
  "[[\"Video.\r\\Hoc facere solus nequeo.\", \"Potesne?\"], [\"Possum.\"]]\n".toList ++
  "### Instructions\n".toList ++
  ("1. **Check Context**: Look at the Preceding Dialogues and determine if they provide relevant context or are unrelated. Be wary that, due to the structure of the dialogue files, dialogues may be only coincidentally adjacent.\n" ++
   "2. **Analyze**: Determine the grammatical structure (Subject, Object, Verb) of the Dialogue to Translate.\n" ++
   "3. **Translate**: Translate the thought into idiomatic Classical Latin. Avoid literalism (e.g., \x27Ede clavem\x27 is wrong; use \x27Dede\x27 or \x27Trade\x27). Fix morphology (e.g., \x27Interfice\x27 not \x27Redinterface\x27). Ensure all words are real, properly inflected Latin words (avoid neologisms unless absolutely necessary for clarity). Overall, prioritize Latin accuracy and intelligibility over structural fidelity to the English. Adhere to the style guide.\n" ++
   "4. ").toList ++ segIns ++ "\n".toList ++
  "5. **Output**: Return JSON with the new dialogue. Write a nested list [[\"...\"]] with ONLY dialogue, no dictionary keys ([\x7b\"NP\": [\"...\"]\x7d] -> [[\"...\"]]). Follow the example given.\n\n".toList ++
  "### Preceding Dialogues in File\n".toList ++
  dumps (.arr (previous_dialogues.map dialogueToJson)) ++ "\n\n".toList ++
  "### Dialogue to Translate\n".toList ++
  dumps (dialogueToJson dialogue)

/-- The corrective prompt (translate.py lines 147-154); `obs` is the value of
`[len(s) for s in translation]`. -/
def corrective_prompt (segIns : Str) (pattern : List Nat) (dialogue : List Speech)
    (translation : Json) (obs : List Nat) : Str :=
  "### Segmenting Directions\n".toList ++ segIns ++ "\n".toList ++
  "### Instructions\n".toList ++
  "This Latin translation for the game Cave Story does not properly meet the constraints of the original English dialogue. The English length schema is ".toList ++
  pyIntList pattern ++
  ", but the Latin is ".toList ++
  pyIntList obs ++
  ". Think how to align the Latin to the English, and construct one that follows the length schema. Carefully count your result before returning it.\n".toList ++
  "**Output**: Return JSON with the new dialogue. Write a nested list [[\"...\"]] with ONLY dialogue, no dictionary keys.\n\n".toList ++
  "### ENGLISH\n".toList ++ dumps (dialogueToJson dialogue) ++ "\n\n".toList ++
  "### LATIN\n".toList ++ dumps translation ++ "\n\n".toList

/-! ## The Model Gateway boundary and the retry loop -/

/-- A returned chat completion: text content plus monetary cost. -/
structure Response where
  content : Str
  cost : ℤ
deriving Repr, DecidableEq

/-- Outcome of one Model Gateway call: a response, a raised exception
(transport error etc.), or a `KeyboardInterrupt` during the pending call. -/
inductive CallOutcome where
  | ok (r : Response)
  | exn
  | interrupt
deriving Repr, DecidableEq

/-- Instrumentation: one issued call, with the prompt it was issued with and
the outcome the gateway produced. -/
structure CallRecord where
  prompt : Str
  outcome : CallOutcome
deriving Repr, DecidableEq

/-- How `translate_dialogue`'s loop ends: `return (parsed, cost)`,
`sys.exit(1)` (attempt ceiling), or `sys.exit(0)` (user cancellation). -/
inductive RunResult where
  | result (translation : Json) (cost : ℤ)
  | exitFail
  | exitClean
deriving Repr

/-! ### The retry loop of `translate_dialogue` (translate.py lines 123-163)

State mirrors the source: `prompt` is the prompt variable (replaced only when
a corrective prompt is constructed successfully), `cost` the accumulator,
`attempts` the counter before its `attempts += 1` at the top of the
iteration.  `gas` is instrumentation equal to `10 - attempts`, carried so the
recursion is structural; the `gas = 0` branch is unreachable while the
invariant holds, because the `attempts + 1 > 10` guard fires first.
`oracle a` is the outcome of the `a`-th Model Gateway call of this block;
the second component of the result records the calls actually issued.

Per iteration, mirroring the source's `try`:
* `cost += response.usage.cost` happens as soon as a response arrives, before
  parsing — so malformed and mismatched responses are still paid for;
* a `json.loads` failure, a `len(parsed)` `TypeError`, and a `TypeError` in
  the corrective prompt's `[len(s) for s in translation]` are all caught by
  `except Exception` and retry with the prompt variable unchanged;
* `KeyboardInterrupt` exits with status 0;
* a shape mismatch replaces the prompt with the corrective prompt. -/

/-- How one iteration of the loop ends. -/
inductive StepKind where
  | interrupted
  | retry (prompt : Str) (cost : ℤ)
  | success (translation : Json) (cost : ℤ)
deriving Repr

/-- One execution of the loop's `try:` body (translate.py lines 129-162)
given the outcome of its gateway call: `interrupted` = `sys.exit(0)`,
`retry p c` = fall through to the next iteration with prompt variable `p`
and accumulated cost `c`, `success parsed c` = `break` out and return. -/
def loop_step (loads : Str → Option Json) (dialogue : List Speech) (segIns : Str)
    (pattern : List Nat) (prompt : Str) (cost : ℤ) : CallOutcome → StepKind
  | .interrupt => .interrupted
  | .exn => .retry prompt cost
  | .ok resp =>
      let cost1 := cost + resp.cost
      match json_parse loads resp.content with
      | none => .retry prompt cost1
      | some parsed =>
          match jsonElems parsed with
          | none => .retry prompt cost1
          | some elems =>
              if elems.length != dialogue.length then
                match elems.mapM jsonLen with
                | none => .retry prompt cost1
                | some obs => .retry (corrective_prompt segIns pattern dialogue parsed obs) cost1
              else
                match elems.mapM jsonLen with
                | none => .retry prompt cost1
                | some lens =>
                    if (lens.zip (dialogue.map (fun s => s.lines.length))).any (fun p => p.1 != p.2)
                        || elems.any (fun s => !s.isArr) then
                      .retry (corrective_prompt segIns pattern dialogue parsed lens) cost1
                    else
                      .success parsed cost1

def translate_loop (oracle : Nat → CallOutcome) (loads : Str → Option Json)
    (dialogue : List Speech) (segIns : Str) (pattern : List Nat) :
    Nat → Str → ℤ → Nat → RunResult × List CallRecord
  | gas, prompt, cost, attempts =>
    if attempts + 1 > 10 then (.exitFail, []) else
    match gas with
    | 0 => (.exitFail, [])
    | gas + 1 =>
      match loop_step loads dialogue segIns pattern prompt cost (oracle (attempts + 1)) with
      | .interrupted => (.exitClean, [⟨prompt, oracle (attempts + 1)⟩])
      | .retry prompt1 cost1 =>
          let rest := translate_loop oracle loads dialogue segIns pattern gas prompt1 cost1 (attempts + 1)
          (rest.1, ⟨prompt, oracle (attempts + 1)⟩ :: rest.2)
      | .success parsed cost1 =>
          (.result parsed cost1, [⟨prompt, oracle (attempts + 1)⟩])

/-- `translate_dialogue` (translate.py lines 86-163).  The `summary` dict
lookups raise `KeyError` when absent, hence `Option`. -/
def translate_dialogue (oracle : Nat → CallOutcome) (loads : Str → Option Json)
    (summary : Json) (previous_dialogues : List (List Speech)) (dialogue : List Speech) :
    Option (RunResult × List CallRecord) := do
  let terms ← jGet summary "terms".toList
  let styles ← jGet summary "character_styles".toList
  let guide ← jGet summary "style_guide".toList
  let pattern := dialogue.map (fun s => s.lines.length)
  let segIns := segment_instructions dialogue pattern
  let prompt := mkPrompt terms styles guide segIns previous_dialogues dialogue
  pure (translate_loop oracle loads dialogue segIns pattern 10 prompt 0 0)

/-! ## Write-back and the Corpus Driver (`make_translation`, lines 168-199) -/

/-- `dl[x]["text"][y][0] = t`: replace slot 0 of one Line, keeping any
further elements; raises `IndexError` on an empty Line. -/
def write_line (l : List Json) (t : Json) : Option (List Json) :=
  match l with
  | [] => none
  | _ :: rest => some (t :: rest)

/-- The inner loop `for (y, t) in enumerate(s)` of the write-back; Lines of
the speech beyond `len(s)` are left untouched; `s` longer than the speech's
`text` raises `IndexError`. -/
def write_lines : List (List Json) → List Json → Option (List (List Json))
  | tl, [] => some tl
  | [], _ :: _ => none
  | l :: tl, t :: ts => do
      let l' ← write_line l t
      let tl' ← write_lines tl ts
      pure (l' :: tl')

/-- The outer loop `for (x, s) in enumerate(trans)` of the write-back
(translate.py lines 193-195). -/
def write_speeches : DialogueB → List Json → Option DialogueB
  | dl, [] => some dl
  | [], _ :: _ => none
  | sp :: dl, s :: ss => do
      let es ← jsonElems s
      let text' ← write_lines sp.text es
      let dl' ← write_speeches dl ss
      pure ({ sp with text := text' } :: dl')

/-- The write-back of one block's Translation Result into the Document. -/
def write_back (dl : DialogueB) (trans : Json) : Option DialogueB := do
  let items ← jsonElems trans
  write_speeches dl items

/-- The value interpolated into the Corpus Summarizer's prompt
(translate.py line 173): `ds = [data_summary(d) for d in files]`. -/
def summarizer_input (doc : Document) : Option (List (List (Str × Json))) :=
  doc.files.mapM data_summary

/-- How the per-file / per-block loops of `make_translation` end. -/
inductive BlocksResult where
  | ok (dialogues : List DialogueB) (cost : ℤ)
  | crash
  | exitFail
  | exitClean
deriving Repr

/-- The loop `for (i, dl) in enumerate(data["dialogues"])` (lines 185-196).
`done` is the already-processed (mutated-in-place) prefix of the file's
dialogue list, `rest` the remainder; `oracle b a` is the outcome of the
`a`-th gateway call of the `b`-th block of the run (1-based).  Besides the
result it returns, in order, the cost values printed at line 187 (one per
block iteration entered) and the gateway call log of each block. -/
def run_blocks (oracle : Nat → Nat → CallOutcome) (loads : Str → Option Json)
    (summary : Json) : List DialogueB → List DialogueB → Nat → ℤ →
    BlocksResult × List ℤ × List (List CallRecord)
  | done, [], _, cost => (.ok done cost, [], [])
  | done, dl :: rest, idx, cost =>
    let idx' := idx + 1
    match format_dialogue dl with
    | none => (.crash, [cost], [])
    | some formatted =>
      match (done.drop (done.length - 3)).mapM format_dialogue with
      | none => (.crash, [cost], [])
      | some context =>
        match translate_dialogue (oracle idx') loads summary context formatted with
        | none => (.crash, [cost], [])
        | some (res, log) =>
          match res with
          | .exitFail => (.exitFail, [cost], [log])
          | .exitClean => (.exitClean, [cost], [log])
          | .result parsed tcost =>
            match write_back dl parsed with
            | none => (.crash, [cost], [log])
            | some dl' =>
              let r := run_blocks oracle loads summary (done ++ [dl']) rest idx' (cost + tcost)
              (r.1, cost :: r.2.1, log :: r.2.2)

/-- Result of the whole driver. -/
inductive DriverResult where
  | done (doc : Document) (cost : ℤ)
  | crash
  | exitFail
  | exitClean
deriving Repr

/-- The loop `for data in files` (lines 183-197).  The `ds = data_summary(data)`
at line 184 is recomputed and unused, but can still raise. -/
def run_files (oracle : Nat → Nat → CallOutcome) (loads : Str → Option Json)
    (summary : Json) : List DFile → Nat → ℤ →
    (Option (List DFile × ℤ) ⊕ BlocksResult) × List ℤ × List (List CallRecord)
  | [], _, cost => (.inl (some ([], cost)), [], [])
  | data :: fs, idx, cost =>
    match data_summary data with
    | none => (.inl none, [], [])
    | some _ =>
      match run_blocks oracle loads summary [] data.dialogues idx cost with
      | (.ok dialogues' cost', reports, logs) =>
        let r := run_files oracle loads summary fs (idx + data.dialogues.length) cost'
        (match r.1 with
         | .inl (some (files', costF)) => (.inl (some (DFile.mk dialogues' :: files', costF)), reports ++ r.2.1, logs ++ r.2.2)
         | other => (other, reports ++ r.2.1, logs ++ r.2.2))
      | (.crash, reports, logs) => (.inr .crash, reports, logs)
      | (.exitFail, reports, logs) => (.inr .exitFail, reports, logs)
      | (.exitClean, reports, logs) => (.inr .exitClean, reports, logs)

/-- `make_translation` (translate.py lines 168-199).  `sumOut` / `termOut`
are the gateway outcomes of the one-time Corpus Summarizer and Term
Translator calls; an exception or a `KeyboardInterrupt` there is uncaught
(`crash`), as is a `json.loads` failure, a missing `summary["terms"]` key or
a write-back `IndexError`.  Returns the driver result together with the cost
values printed at line 187 and the per-block gateway call logs. -/
def make_translation (sumOut termOut : CallOutcome) (oracle : Nat → Nat → CallOutcome)
    (loads : Str → Option Json) (doc : Document) :
    DriverResult × List ℤ × List (List CallRecord) :=
  match summarizer_input doc with
  | none => (.crash, [], [])
  | some _ds =>
    match sumOut with
    | .ok r =>
      match json_parse loads r.content with
      | none => (.crash, [], [])
      | some summary0 =>
        match jGet summary0 "terms".toList with
        | none => (.crash, [], [])
        | some _terms =>
          match termOut with
          | .ok r2 =>
            match json_parse loads r2.content with
            | none => (.crash, [], [])
            | some termsJson =>
              let summary := jSet summary0 "terms".toList termsJson
              let cost2 : ℤ := r.cost + r2.cost
              match run_files oracle loads summary doc.files 0 cost2 with
              | (.inl (some (files', costF)), reports, logs) => (.done ⟨files'⟩ costF, reports, logs)
              | (.inl none, reports, logs) => (.crash, reports, logs)
              | (.inr .crash, reports, logs) => (.crash, reports, logs)
              | (.inr .exitFail, reports, logs) => (.exitFail, reports, logs)
              | (.inr .exitClean, reports, logs) => (.exitClean, reports, logs)
              | (.inr (.ok _ _), reports, logs) => (.crash, reports, logs)
          | _ => (.crash, [], [])
    | _ => (.crash, [], [])

/-! ## Derived notions used by the theorems -/

/-- The cost charged by one gateway call: the returned cost of a response;
a call that raised returns no cost. -/
def outcomeCost : CallOutcome → ℤ
  | .ok r => r.cost
  | _ => 0

/-- Sum of the costs of the gateway calls of one log; calls that raised have
no returned cost. -/
def okCostSum (log : List CallRecord) : ℤ :=
  (log.map (fun cr => outcomeCost cr.outcome)).sum

/-- The attempt outcomes that land in `except Exception` (translate.py line
160) and so retry with the prompt variable unchanged: a raised gateway call,
a `json.loads` failure, a `len(parsed)` `TypeError`, or a `TypeError` from
`[len(s) for s in translation]`. -/
def attempt_exception (loads : Str → Option Json) : CallOutcome → Bool
  | .exn => true
  | .interrupt => false
  | .ok resp =>
      match json_parse loads resp.content with
      | none => true
      | some parsed =>
          match jsonElems parsed with
          | none => true
          | some elems =>
              match elems.mapM jsonLen with
              | none => true
              | some _ => false

/-- The attempt outcomes that fail to produce a conforming translation for
`dialogue` (by exception, parse failure, or shape mismatch) and so keep the
loop going. -/
def attempt_fails (loads : Str → Option Json) (dialogue : List Speech) : CallOutcome → Bool
  | .exn => true
  | .interrupt => false
  | .ok resp =>
      match json_parse loads resp.content with
      | none => true
      | some parsed =>
          match jsonElems parsed with
          | none => true
          | some elems =>
              if elems.length != dialogue.length then true
              else
                match elems.mapM jsonLen with
                | none => true
                | some lens =>
                    (lens.zip (dialogue.map (fun s => s.lines.length))).any (fun p => p.1 != p.2)
                      || elems.any (fun s => !s.isArr)

/-- Running partial sums: the value of a cost accumulator, starting at
`base`, observed at the start of each successive addition. -/
def prefixSums (base : ℤ) : List ℤ → List ℤ
  | [] => []
  | c :: cs => base :: prefixSums (base + c) cs

/-- Tag of a call outcome (0 = response, 1 = exception, 2 = interrupt),
used to state concrete facts about call logs without spelling out prompts. -/
def outcomeKind : CallOutcome → Nat
  | .ok _ => 0
  | .exn => 1
  | .interrupt => 2

/-- Modelled from the spec: the Corpus Summarizer input the spec describes —
"the full corpus reduced to a list of `{character_name: line_text}`
single-entry mappings (one per spoken line, across all blocks and files, in
document order)" (spec section 4.2).  The source has no such flat reduction;
this definition renders the spec's words for comparison. -/
def corpus_flat_spec (doc : Document) : Option (List (Str × Json)) :=
  (doc.files.flatMap (fun f =>
    f.dialogues.flatMap (fun d => d.flatMap (fun s => s.text.map (fun t => (s.character, t)))))).mapM
    (fun ct => ct.2.head?.map (fun h => (ct.1, h)))

/-! ### Concrete data for witnesses and counterexamples -/

/-- A well-formed summary dict (as after the term-translation step). -/
def exSummary : Json :=
  .obj [("terms".toList, .obj []), ("character_styles".toList, .obj []),
        ("style_guide".toList, .obj [])]

/-- Response outcome with given text and cost. -/
def exOk (s : String) (c : ℤ) : CallOutcome := .ok ⟨s.toList, c⟩

/-- One speech, one line. -/
def exDialogue1 : List Speech := [⟨"A".toList, [.str "hi".toList]⟩]

/-- Two speeches with line counts `[2, 1]`. -/
def exDialogue2 : List Speech :=
  [⟨"A".toList, [.str "a1".toList, .str "a2".toList]⟩, ⟨"B".toList, [.str "b1".toList]⟩]

/-- Gateway: a conforming response for `exDialogue1` on every attempt. -/
def exOracleGood : Nat → CallOutcome := fun _ => exOk "[[\"x\"]]" 1

/-- Gateway: responds `{}` (valid JSON, length 0, not a list). -/
def exOracleEmptyObj : Nat → CallOutcome := fun _ => exOk "\x7b\x7d" 1

/-- Gateway: first response `[5]` (valid JSON, wrong length, element not
sized), then a response conforming to `exDialogue2`. -/
def exOracleBadElem : Nat → CallOutcome := fun a =>
  if a = 1 then exOk "[5]" 1 else exOk "[[\"a\", \"b\"], [\"c\"]]" 2

/-- Gateway: first response of shape `[1, 1]` against `exDialogue2`'s
`[2, 1]`, then a conforming response. -/
def exOracleMismatch : Nat → CallOutcome := fun a =>
  if a = 1 then exOk "[[\"a\"], [\"b\"]]" 1 else exOk "[[\"a\", \"b\"], [\"c\"]]" 2

/-- Gateway: shape mismatch, then an exception, then a conforming response
for `exDialogue1`. -/
def exOracleMismatchExn : Nat → CallOutcome := fun a =>
  if a = 1 then exOk "[[], []]" 1 else if a = 2 then .exn else exOk "[[\"x\"]]" 4

/-- Gateway: every call raises. -/
def exOracleExn : Nat → CallOutcome := fun _ => .exn

/-- Gateway: two exceptions, then a user interrupt. -/
def exOracleInterrupt : Nat → CallOutcome := fun a => if a ≤ 2 then .exn else .interrupt

/-- A one-element Line. -/
def exLine (s : String) : List Json := [.str s.toList]

/-- A two-file document: file 1 has two blocks (line counts `[2,1]` and
`[1]`), file 2 one block. -/
def exDoc : Document :=
  ⟨[⟨[[⟨"A".toList, [exLine "a1", exLine "a2"]⟩, ⟨"B".toList, [exLine "b1"]⟩],
     [⟨"NP".toList, [exLine "c1"]⟩]]⟩,
    ⟨[[⟨"D".toList, [exLine "d1"]⟩]]⟩]⟩

/-- Summarizer response for `exDoc`. -/
def exSumOut : CallOutcome :=
  exOk "\x7b\"terms\": [\"Polar Star\"], \"character_styles\": \x7b\x7d, \"style_guide\": \x7b\x7d\x7d" 10

/-- Term-translation response for `exDoc`. -/
def exTermOut : CallOutcome := exOk "\x7b\"Polar Star\": \"Stella Polaris\"\x7d" 20

/-- Per-block gateway outcomes for `exDoc`: block 1 needs two attempts (a
mismatched response, then a conforming one), blocks 2 and 3 one each. -/
def exBlockOracle : Nat → Nat → CallOutcome := fun b a =>
  if b = 1 then
    (if a = 1 then exOk "[[\"bad\"], [\"y1\"]]" 7 else exOk "[[\"x1\", \"x2\"], [\"y1\"]]" 1)
  else if b = 2 then exOk "```json\n[[\"z1\"]]\n```" 2
  else exOk "[[\"w1\"]]" 4

/-- A one-speech, one-line raw block for the write-back witness. -/
def exC5dl : DialogueB := [⟨"A".toList, [[Json.str "x".toList]]⟩]

/-- A conforming Translation Result for `exC5dl`. -/
def exC5trans : Json := .arr [.arr [.str "y".toList]]

/-- The value `make_translation` passes to the Corpus Summarizer for
`exDoc`: one inner list per file. -/
def exC8nested : List (List (Str × Json)) :=
  [[("A".toList, Json.str "a1".toList), ("A".toList, Json.str "a2".toList),
    ("B".toList, Json.str "b1".toList), ("NP".toList, Json.str "c1".toList)],
   [("D".toList, Json.str "d1".toList)]]

/-- The output document of the `exDoc` driver run. -/
def exDocOut : Document :=
  ⟨[⟨[[⟨"A".toList, [[Json.str "x1".toList], [Json.str "x2".toList]]⟩,
      ⟨"B".toList, [[Json.str "y1".toList]]⟩],
     [⟨"NP".toList, [[Json.str "z1".toList]]⟩]]⟩,
    ⟨[[⟨"D".toList, [[Json.str "w1".toList]]⟩]]⟩]⟩

/-! ## C10: the fence stripping is a raw `s[8:-3]` slice -/

/-- C10: for any input that starts with the seven-character opener
` ```json `, `json_parse` hands `loads` exactly `s[8:-3]`, unconditionally:
(a) in general; (b) for an opener-plus-newline with no closing fence, the
last three characters of the payload are dropped; (c) for an opener not
followed by a newline (payload `c :: p`) with a closing fence, the first
payload character `c` is lost. -/
theorem json_parse_slices_unconditionally :
    (∀ (loads : Str → Option Json) (s : Str), startsWith fenceOpen s = true →
      json_parse loads s = loads ((s.drop 8).take ((s.drop 8).length - 3)))
    ∧ (∀ (loads : Str → Option Json) (t : Str),
      json_parse loads ("```json\n".toList ++ t) = loads (t.take (t.length - 3)))
    ∧ (∀ (loads : Str → Option Json) (c : Char) (p : Str),
      json_parse loads ("```json".toList ++ c :: p ++ "```".toList) = loads p) := by
  refine ⟨fun loads s h => ?_, fun loads t => rfl, fun loads c p => ?_⟩
  · unfold json_parse pySlice8m3
    rw [h]
    rfl
  · have hred : json_parse loads ("```json".toList ++ c :: p ++ "```".toList)
      = loads ((p ++ "```".toList).take ((p ++ "```".toList).length - 3)) := rfl
    have hlen : (p ++ "```".toList).length - 3 = p.length := by
      simp [List.length_append]
    have htake : (p ++ "```".toList).take p.length = p := List.take_left p _
    rw [hred, hlen, htake]

/-- Witness for C10 at `"```json[12345]"`: characters `[`, `4`, `5`, `]` of
the payload are discarded and `loads` receives `"123"`. -/
theorem json_parse_slices_unconditionally_witness :
    startsWith fenceOpen "```json[12345]".toList = true
    ∧ json_parse loads0 "```json[12345]".toList = some (Json.num 123) :=
  ⟨rfl, (json_parse_slices_unconditionally.1 loads0 "```json[12345]".toList rfl).trans rfl⟩

/-! ## C6: clean text is parsed as-is; fenced text is stripped; round-trip -/

/-- C6: with `loads`/`dumps` standing for the external `json.loads` /
`json.dumps` (assumed to tolerate a trailing newline and to be mutually
inverse at `x` — true of the Python library): text not starting with a fence
is parsed as-is; a fence wrapper is stripped exactly once; and
`parse (wrap_in_fence (serialize x)) = x`. -/
theorem json_parse_clean_fence_roundtrip (loads : Str → Option Json) (s t : Str) (x : Json)
    (hclean : startsWith fenceOpen s = false)
    (hnl : loads (t ++ ['\n']) = loads t)
    (hx : loads (dumps x ++ ['\n']) = some x) :
    json_parse loads s = loads s
    ∧ json_parse loads (wrap_in_fence t) = loads t
    ∧ json_parse loads (wrap_in_fence (dumps x)) = some x := by
  have hstrip : ∀ u : Str, json_parse loads (wrap_in_fence u) = loads (u ++ ['\n']) := by
    intro u
    have hred : json_parse loads (wrap_in_fence u)
        = loads ((u ++ "\n```".toList).take ((u ++ "\n```".toList).length - 3)) := rfl
    have hlen : (u ++ "\n```".toList).length - 3 = u.length + 1 := by
      simp [List.length_append]
    have htake : (u ++ "\n```".toList).take (u.length + 1) = u ++ ['\n'] := by
      rw [List.take_append]
      rfl
    rw [hred, hlen, htake]
  refine ⟨?_, ?_, ?_⟩
  · unfold json_parse
    rw [hclean]
    simp
  · rw [hstrip t, hnl]
  · rw [hstrip (dumps x), hx]

/-- Witness for C6 at the reference reader, clean text `"null"` and the JSON
value `null`. -/
theorem json_parse_clean_fence_roundtrip_witness :
    json_parse loads0 "null".toList = loads0 "null".toList
    ∧ json_parse loads0 (wrap_in_fence "null".toList) = loads0 "null".toList
    ∧ json_parse loads0 (wrap_in_fence (dumps .null)) = some .null :=
  json_parse_clean_fence_roundtrip loads0 "null".toList "null".toList .null rfl rfl rfl

/-! ## Lemmas about one loop iteration (`loop_step`) -/

theorem loop_step_exn (loads : Str → Option Json) (dialogue : List Speech)
    (segIns : Str) (pattern : List Nat) (prompt : Str) (cost : ℤ) :
    loop_step loads dialogue segIns pattern prompt cost .exn = .retry prompt cost := rfl

theorem loop_step_intr (loads : Str → Option Json) (dialogue : List Speech)
    (segIns : Str) (pattern : List Nat) (prompt : Str) (cost : ℤ) :
    loop_step loads dialogue segIns pattern prompt cost .interrupt = .interrupted := rfl

theorem loop_step_parse_none (loads : Str → Option Json) (dialogue : List Speech)
    (segIns : Str) (pattern : List Nat) (prompt : Str) (cost : ℤ) (resp : Response)
    (h1 : json_parse loads resp.content = none) :
    loop_step loads dialogue segIns pattern prompt cost (.ok resp) = .retry prompt (cost + resp.cost) := by
  simp only [loop_step]
  rw [h1]

theorem loop_step_elems_none (loads : Str → Option Json) (dialogue : List Speech)
    (segIns : Str) (pattern : List Nat) (prompt : Str) (cost : ℤ) (resp : Response)
    (parsed : Json)
    (h1 : json_parse loads resp.content = some parsed) (h2 : jsonElems parsed = none) :
    loop_step loads dialogue segIns pattern prompt cost (.ok resp) = .retry prompt (cost + resp.cost) := by
  simp only [loop_step]
  rw [h1]; dsimp only; rw [h2]

theorem loop_step_lens_none (loads : Str → Option Json) (dialogue : List Speech)
    (segIns : Str) (pattern : List Nat) (prompt : Str) (cost : ℤ) (resp : Response)
    (parsed : Json) (elems : List Json)
    (h1 : json_parse loads resp.content = some parsed) (h2 : jsonElems parsed = some elems)
    (h3 : elems.mapM jsonLen = none) :
    loop_step loads dialogue segIns pattern prompt cost (.ok resp) = .retry prompt (cost + resp.cost) := by
  simp only [loop_step]
  rw [h1]; dsimp only; rw [h2]; dsimp only; rw [h3]
  split <;> rfl

theorem loop_step_len_mismatch (loads : Str → Option Json) (dialogue : List Speech)
    (segIns : Str) (pattern : List Nat) (prompt : Str) (cost : ℤ) (resp : Response)
    (parsed : Json) (elems : List Json) (obs : List Nat)
    (h1 : json_parse loads resp.content = some parsed) (h2 : jsonElems parsed = some elems)
    (h3 : elems.mapM jsonLen = some obs) (h4 : (elems.length != dialogue.length) = true) :
    loop_step loads dialogue segIns pattern prompt cost (.ok resp)
      = .retry (corrective_prompt segIns pattern dialogue parsed obs) (cost + resp.cost) := by
  simp only [loop_step]
  rw [h1]; dsimp only; rw [h2]; dsimp only; rw [h4]
  simp only [if_true]
  rw [h3]

theorem loop_step_inner_mismatch (loads : Str → Option Json) (dialogue : List Speech)
    (segIns : Str) (pattern : List Nat) (prompt : Str) (cost : ℤ) (resp : Response)
    (parsed : Json) (elems : List Json) (obs : List Nat)
    (h1 : json_parse loads resp.content = some parsed) (h2 : jsonElems parsed = some elems)
    (h3 : elems.mapM jsonLen = some obs) (h4 : (elems.length != dialogue.length) = false)
    (h5 : (((obs.zip (dialogue.map (fun s => s.lines.length))).any (fun p => p.1 != p.2))
            || elems.any (fun s => !s.isArr)) = true) :
    loop_step loads dialogue segIns pattern prompt cost (.ok resp)
      = .retry (corrective_prompt segIns pattern dialogue parsed obs) (cost + resp.cost) := by
  simp only [loop_step]
  rw [h1]; dsimp only; rw [h2]; dsimp only; rw [h4]
  simp only [Bool.false_eq_true, if_false]
  rw [h3]; dsimp only; rw [h5]
  simp only [if_true]

theorem loop_step_conforming (loads : Str → Option Json) (dialogue : List Speech)
    (segIns : Str) (pattern : List Nat) (prompt : Str) (cost : ℤ) (resp : Response)
    (parsed : Json) (elems : List Json) (obs : List Nat)
    (h1 : json_parse loads resp.content = some parsed) (h2 : jsonElems parsed = some elems)
    (h3 : elems.mapM jsonLen = some obs) (h4 : (elems.length != dialogue.length) = false)
    (h5 : (((obs.zip (dialogue.map (fun s => s.lines.length))).any (fun p => p.1 != p.2))
            || elems.any (fun s => !s.isArr)) = false) :
    loop_step loads dialogue segIns pattern prompt cost (.ok resp)
      = .success parsed (cost + resp.cost) := by
  simp only [loop_step]
  rw [h1]; dsimp only; rw [h2]; dsimp only; rw [h4]
  simp only [Bool.false_eq_true, if_false]
  rw [h3]; dsimp only; rw [h5]
  simp

theorem loop_step_interrupted_iff (loads : Str → Option Json) (dialogue : List Speech)
    (segIns : Str) (pattern : List Nat) (prompt : Str) (cost : ℤ) (o : CallOutcome) :
    loop_step loads dialogue segIns pattern prompt cost o = .interrupted ↔ o = .interrupt := by
  constructor
  · intro h
    cases o with
    | interrupt => rfl
    | exn => rw [loop_step_exn] at h; cases h
    | ok resp =>
      exfalso
      cases hjp : json_parse loads resp.content with
      | none => rw [loop_step_parse_none _ _ _ _ _ _ _ hjp] at h; cases h
      | some parsed =>
        cases hje : jsonElems parsed with
        | none => rw [loop_step_elems_none _ _ _ _ _ _ _ _ hjp hje] at h; cases h
        | some elems =>
          cases hml : elems.mapM jsonLen with
          | none => rw [loop_step_lens_none _ _ _ _ _ _ _ _ _ hjp hje hml] at h; cases h
          | some obs =>
            cases hb1 : (elems.length != dialogue.length) with
            | true => rw [loop_step_len_mismatch _ _ _ _ _ _ _ _ _ _ hjp hje hml hb1] at h; cases h
            | false =>
              cases hb2 : (((obs.zip (dialogue.map (fun s => s.lines.length))).any (fun p => p.1 != p.2))
                  || elems.any (fun s => !s.isArr)) with
              | true => rw [loop_step_inner_mismatch _ _ _ _ _ _ _ _ _ _ hjp hje hml hb1 hb2] at h; cases h
              | false => rw [loop_step_conforming _ _ _ _ _ _ _ _ _ _ hjp hje hml hb1 hb2] at h; cases h
  · intro h; subst h; rfl

/-- Every iteration either hits a user interrupt, retries with the cost
increased by exactly the call's returned cost, or succeeds with a response
that passed the whole shape validation. -/
theorem loop_step_cases (loads : Str → Option Json) (dialogue : List Speech)
    (segIns : Str) (pattern : List Nat) (prompt : Str) (cost : ℤ) (o : CallOutcome) :
    (o = .interrupt ∧ loop_step loads dialogue segIns pattern prompt cost o = .interrupted)
    ∨ (∃ p', loop_step loads dialogue segIns pattern prompt cost o = .retry p' (cost + outcomeCost o))
    ∨ (∃ parsed elems obs,
        loop_step loads dialogue segIns pattern prompt cost o = .success parsed (cost + outcomeCost o)
        ∧ jsonElems parsed = some elems
        ∧ (elems.length != dialogue.length) = false
        ∧ elems.mapM jsonLen = some obs
        ∧ ((obs.zip (dialogue.map (fun s => s.lines.length))).any (fun p => p.1 != p.2)) = false
        ∧ (elems.any (fun s => !s.isArr)) = false) := by
  cases o with
  | interrupt => exact Or.inl ⟨rfl, rfl⟩
  | exn =>
    refine Or.inr (Or.inl ⟨prompt, ?_⟩)
    rw [loop_step_exn]
    simp [outcomeCost]
  | ok resp =>
    have hco : outcomeCost (.ok resp) = resp.cost := rfl
    rw [hco]
    cases hjp : json_parse loads resp.content with
    | none => exact Or.inr (Or.inl ⟨prompt, loop_step_parse_none _ _ _ _ _ _ _ hjp⟩)
    | some parsed =>
      cases hje : jsonElems parsed with
      | none => exact Or.inr (Or.inl ⟨prompt, loop_step_elems_none _ _ _ _ _ _ _ _ hjp hje⟩)
      | some elems =>
        cases hml : elems.mapM jsonLen with
        | none => exact Or.inr (Or.inl ⟨prompt, loop_step_lens_none _ _ _ _ _ _ _ _ _ hjp hje hml⟩)
        | some obs =>
          cases hb1 : (elems.length != dialogue.length) with
          | true =>
            exact Or.inr (Or.inl ⟨_, loop_step_len_mismatch _ _ _ _ _ _ _ _ _ _ hjp hje hml hb1⟩)
          | false =>
            cases hb2 : (((obs.zip (dialogue.map (fun s => s.lines.length))).any (fun p => p.1 != p.2))
                || elems.any (fun s => !s.isArr)) with
            | true =>
              exact Or.inr (Or.inl ⟨_, loop_step_inner_mismatch _ _ _ _ _ _ _ _ _ _ hjp hje hml hb1 hb2⟩)
            | false =>
              refine Or.inr (Or.inr ⟨parsed, elems, obs,
                loop_step_conforming _ _ _ _ _ _ _ _ _ _ hjp hje hml hb1 hb2, hje, hb1, hml, ?_, ?_⟩)
              · exact (Bool.or_eq_false_iff.mp hb2).1
              · exact (Bool.or_eq_false_iff.mp hb2).2

/-- An attempt that lands in `except Exception` retries with the prompt
variable unchanged. -/
theorem loop_step_exception_keeps_prompt (loads : Str → Option Json) (dialogue : List Speech)
    (segIns : Str) (pattern : List Nat) (prompt : Str) (cost : ℤ) (o : CallOutcome)
    (h : attempt_exception loads o = true) :
    loop_step loads dialogue segIns pattern prompt cost o = .retry prompt (cost + outcomeCost o) := by
  cases o with
  | interrupt => simp [attempt_exception] at h
  | exn => rw [loop_step_exn]; simp [outcomeCost]
  | ok resp =>
    have hco : outcomeCost (.ok resp) = resp.cost := rfl
    rw [hco]
    cases hjp : json_parse loads resp.content with
    | none => exact loop_step_parse_none _ _ _ _ _ _ _ hjp
    | some parsed =>
      cases hje : jsonElems parsed with
      | none => exact loop_step_elems_none _ _ _ _ _ _ _ _ hjp hje
      | some elems =>
        cases hml : elems.mapM jsonLen with
        | none => exact loop_step_lens_none _ _ _ _ _ _ _ _ _ hjp hje hml
        | some obs =>
          exfalso
          simp only [attempt_exception] at h
          rw [hjp] at h; dsimp only at h; rw [hje] at h; dsimp only at h; rw [hml] at h
          simp at h

/-- A failing attempt (exception, parse failure, or shape mismatch) keeps
the loop going: the step is a retry, paying the call's cost. -/
theorem loop_step_fails_retry (loads : Str → Option Json) (dialogue : List Speech)
    (segIns : Str) (pattern : List Nat) (prompt : Str) (cost : ℤ) (o : CallOutcome)
    (h : attempt_fails loads dialogue o = true) :
    ∃ p', loop_step loads dialogue segIns pattern prompt cost o = .retry p' (cost + outcomeCost o) := by
  cases o with
  | interrupt => simp [attempt_fails] at h
  | exn => exact ⟨prompt, by rw [loop_step_exn]; simp [outcomeCost]⟩
  | ok resp =>
    have hco : outcomeCost (.ok resp) = resp.cost := rfl
    rw [hco]
    cases hjp : json_parse loads resp.content with
    | none => exact ⟨prompt, loop_step_parse_none _ _ _ _ _ _ _ hjp⟩
    | some parsed =>
      cases hje : jsonElems parsed with
      | none => exact ⟨prompt, loop_step_elems_none _ _ _ _ _ _ _ _ hjp hje⟩
      | some elems =>
        cases hml : elems.mapM jsonLen with
        | none => exact ⟨prompt, loop_step_lens_none _ _ _ _ _ _ _ _ _ hjp hje hml⟩
        | some obs =>
          cases hb1 : (elems.length != dialogue.length) with
          | true => exact ⟨_, loop_step_len_mismatch _ _ _ _ _ _ _ _ _ _ hjp hje hml hb1⟩
          | false =>
            cases hb2 : (((obs.zip (dialogue.map (fun s => s.lines.length))).any (fun p => p.1 != p.2))
                || elems.any (fun s => !s.isArr)) with
            | true => exact ⟨_, loop_step_inner_mismatch _ _ _ _ _ _ _ _ _ _ hjp hje hml hb1 hb2⟩
            | false =>
              exfalso
              simp only [attempt_fails] at h
              rw [hjp] at h; dsimp only at h; rw [hje] at h; dsimp only at h
              rw [hb1] at h
              simp only [Bool.false_eq_true, if_false] at h
              rw [hml] at h; dsimp only at h; rw [hb2] at h
              exact Bool.false_ne_true h

/-! ## Lemmas about the retry loop -/

theorem translate_loop_stop (oracle : Nat → CallOutcome) (loads : Str → Option Json)
    (dialogue : List Speech) (segIns : Str) (pattern : List Nat)
    (gas : Nat) (prompt : Str) (cost : ℤ) (attempts : Nat) (hatt : attempts + 1 > 10) :
    translate_loop oracle loads dialogue segIns pattern gas prompt cost attempts = (.exitFail, []) := by
  rw [translate_loop.eq_def]; dsimp only; rw [if_pos hatt]

theorem translate_loop_succ (oracle : Nat → CallOutcome) (loads : Str → Option Json)
    (dialogue : List Speech) (segIns : Str) (pattern : List Nat)
    (gas : Nat) (prompt : Str) (cost : ℤ) (attempts : Nat) (hatt : ¬ attempts + 1 > 10) :
    translate_loop oracle loads dialogue segIns pattern (gas + 1) prompt cost attempts
      = match loop_step loads dialogue segIns pattern prompt cost (oracle (attempts + 1)) with
        | .interrupted => (.exitClean, [⟨prompt, oracle (attempts + 1)⟩])
        | .retry prompt1 cost1 =>
            let rest := translate_loop oracle loads dialogue segIns pattern gas prompt1 cost1 (attempts + 1)
            (rest.1, ⟨prompt, oracle (attempts + 1)⟩ :: rest.2)
        | .success parsed cost1 => (.result parsed cost1, [⟨prompt, oracle (attempts + 1)⟩]) := by
  rw [translate_loop.eq_def]; dsimp only; rw [if_neg hatt]

theorem translate_loop_zero (oracle : Nat → CallOutcome) (loads : Str → Option Json)
    (dialogue : List Speech) (segIns : Str) (pattern : List Nat)
    (prompt : Str) (cost : ℤ) (attempts : Nat) :
    translate_loop oracle loads dialogue segIns pattern 0 prompt cost attempts = (.exitFail, []) := by
  rw [translate_loop.eq_def]; dsimp only
  split <;> rfl

theorem loop_step_retry_cost (loads : Str → Option Json) (dialogue : List Speech)
    (segIns : Str) (pattern : List Nat) (prompt : Str) (cost : ℤ) (o : CallOutcome)
    (p1 : Str) (c1 : ℤ)
    (h : loop_step loads dialogue segIns pattern prompt cost o = .retry p1 c1) :
    c1 = cost + outcomeCost o := by
  rcases loop_step_cases loads dialogue segIns pattern prompt cost o with
    ⟨_, hi⟩ | ⟨p', hp'⟩ | ⟨parsed, elems, obs, hs, _⟩
  · rw [hi] at h; cases h
  · rw [hp'] at h; cases h; rfl
  · rw [hs] at h; cases h

theorem loop_step_success_props (loads : Str → Option Json) (dialogue : List Speech)
    (segIns : Str) (pattern : List Nat) (prompt : Str) (cost : ℤ) (o : CallOutcome)
    (parsed : Json) (c1 : ℤ)
    (h : loop_step loads dialogue segIns pattern prompt cost o = .success parsed c1) :
    c1 = cost + outcomeCost o
    ∧ ∃ elems obs, jsonElems parsed = some elems
        ∧ (elems.length != dialogue.length) = false
        ∧ elems.mapM jsonLen = some obs
        ∧ ((obs.zip (dialogue.map (fun s => s.lines.length))).any (fun p => p.1 != p.2)) = false
        ∧ (elems.any (fun s => !s.isArr)) = false := by
  rcases loop_step_cases loads dialogue segIns pattern prompt cost o with
    ⟨_, hi⟩ | ⟨p', hp'⟩ | ⟨parsed', elems, obs, hs, hje, hb1, hml, hz, ha⟩
  · rw [hi] at h; cases h
  · rw [hp'] at h; cases h
  · rw [hs] at h
    cases h
    exact ⟨rfl, elems, obs, hje, hb1, hml, hz, ha⟩

/-- The first call of any run of the loop is issued with the loop's current
prompt. -/
theorem translate_loop_head_prompt (oracle : Nat → CallOutcome) (loads : Str → Option Json)
    (dialogue : List Speech) (segIns : Str) (pattern : List Nat)
    (gas : Nat) (prompt : Str) (cost : ℤ) (attempts : Nat) (cr : CallRecord)
    (h : (translate_loop oracle loads dialogue segIns pattern gas prompt cost attempts).2.head? = some cr) :
    cr.prompt = prompt ∧ cr.outcome = oracle (attempts + 1) := by
  by_cases hatt : attempts + 1 > 10
  · rw [translate_loop_stop _ _ _ _ _ _ _ _ _ hatt] at h; cases h
  · match gas with
    | 0 => rw [translate_loop_zero] at h; cases h
    | gas + 1 =>
      rw [translate_loop_succ _ _ _ _ _ _ _ _ _ hatt] at h
      cases hstep : loop_step loads dialogue segIns pattern prompt cost (oracle (attempts + 1)) with
      | interrupted => rw [hstep] at h; cases h; exact ⟨rfl, rfl⟩
      | retry p1 c1 => rw [hstep] at h; cases h; exact ⟨rfl, rfl⟩
      | success parsed c1 => rw [hstep] at h; cases h; exact ⟨rfl, rfl⟩

/-- The loop never issues more than `gas` calls. -/
theorem translate_loop_length_le (oracle : Nat → CallOutcome) (loads : Str → Option Json)
    (dialogue : List Speech) (segIns : Str) (pattern : List Nat) :
    ∀ (gas : Nat) (prompt : Str) (cost : ℤ) (attempts : Nat),
      (translate_loop oracle loads dialogue segIns pattern gas prompt cost attempts).2.length ≤ gas := by
  intro gas
  induction gas with
  | zero =>
    intro prompt cost attempts
    by_cases hatt : attempts + 1 > 10
    · rw [translate_loop_stop _ _ _ _ _ _ _ _ _ hatt]; simp
    · rw [translate_loop_zero]; simp
  | succ g ih =>
    intro prompt cost attempts
    by_cases hatt : attempts + 1 > 10
    · rw [translate_loop_stop _ _ _ _ _ _ _ _ _ hatt]; simp
    · rw [translate_loop_succ _ _ _ _ _ _ _ _ _ hatt]
      cases hstep : loop_step loads dialogue segIns pattern prompt cost (oracle (attempts + 1)) with
      | interrupted => simp
      | retry p1 c1 => simpa using Nat.succ_le_succ (ih p1 c1 (attempts + 1))
      | success parsed c1 => simp

/-- If every one of the remaining allowed attempts fails, the loop exits
with failure status after issuing exactly the remaining `gas` calls. -/
theorem translate_loop_all_fail (oracle : Nat → CallOutcome) (loads : Str → Option Json)
    (dialogue : List Speech) (segIns : Str) (pattern : List Nat) :
    ∀ (gas : Nat) (prompt : Str) (cost : ℤ) (attempts : Nat),
      gas + attempts = 10 →
      (∀ k, attempts < k → k ≤ 10 → attempt_fails loads dialogue (oracle k) = true) →
      (translate_loop oracle loads dialogue segIns pattern gas prompt cost attempts).1 = .exitFail
      ∧ (translate_loop oracle loads dialogue segIns pattern gas prompt cost attempts).2.length = gas := by
  intro gas
  induction gas with
  | zero =>
    intro prompt cost attempts hsum _
    have hatt : attempts + 1 > 10 := by omega
    rw [translate_loop_stop _ _ _ _ _ _ _ _ _ hatt]
    simp
  | succ g ih =>
    intro prompt cost attempts hsum hfail
    have hatt : ¬ attempts + 1 > 10 := by omega
    rw [translate_loop_succ _ _ _ _ _ _ _ _ _ hatt]
    have hk : attempt_fails loads dialogue (oracle (attempts + 1)) = true :=
      hfail (attempts + 1) (by omega) (by omega)
    obtain ⟨p', hstep⟩ :=
      loop_step_fails_retry loads dialogue segIns pattern prompt cost (oracle (attempts + 1)) hk
    rw [hstep]
    have := ih p' (cost + outcomeCost (oracle (attempts + 1))) (attempts + 1) (by omega)
      (fun k hk1 hk2 => hfail k (by omega) hk2)
    simpa using this

/-- On a successful run the returned cost is the starting accumulator plus
the cost of every call issued (including failed and mismatched ones). -/
theorem translate_loop_result_cost (oracle : Nat → CallOutcome) (loads : Str → Option Json)
    (dialogue : List Speech) (segIns : Str) (pattern : List Nat) :
    ∀ (gas : Nat) (prompt : Str) (cost : ℤ) (attempts : Nat) (parsed : Json) (c : ℤ),
      (translate_loop oracle loads dialogue segIns pattern gas prompt cost attempts).1 = .result parsed c →
      c = cost + okCostSum (translate_loop oracle loads dialogue segIns pattern gas prompt cost attempts).2 := by
  intro gas
  induction gas with
  | zero =>
    intro prompt cost attempts parsed c h
    by_cases hatt : attempts + 1 > 10
    · rw [translate_loop_stop _ _ _ _ _ _ _ _ _ hatt] at h; cases h
    · rw [translate_loop_zero] at h; cases h
  | succ g ih =>
    intro prompt cost attempts parsed c h
    by_cases hatt : attempts + 1 > 10
    · rw [translate_loop_stop _ _ _ _ _ _ _ _ _ hatt] at h; cases h
    · rw [translate_loop_succ _ _ _ _ _ _ _ _ _ hatt] at h ⊢
      cases hstep : loop_step loads dialogue segIns pattern prompt cost (oracle (attempts + 1)) with
      | interrupted => rw [hstep] at h; cases h
      | retry p1 c1 =>
        rw [hstep] at h
        simp only at h
        have hc := ih p1 c1 (attempts + 1) parsed c h
        have hc1 := loop_step_retry_cost loads dialogue segIns pattern prompt cost _ _ _ hstep
        simp only [okCostSum, List.map_cons, List.sum_cons]
        simp only [okCostSum] at hc
        rw [hc, hc1]
        ring
      | success parsed1 c1 =>
        rw [hstep] at h
        simp only at h
        cases h
        have := (loop_step_success_props loads dialogue segIns pattern prompt cost _ _ _ hstep).1
        rw [this]
        simp [okCostSum]

/-- Any translation the loop returns passed the full shape validation. -/
theorem translate_loop_result_shape (oracle : Nat → CallOutcome) (loads : Str → Option Json)
    (dialogue : List Speech) (segIns : Str) (pattern : List Nat) :
    ∀ (gas : Nat) (prompt : Str) (cost : ℤ) (attempts : Nat) (parsed : Json) (c : ℤ),
      (translate_loop oracle loads dialogue segIns pattern gas prompt cost attempts).1 = .result parsed c →
      ∃ elems obs, jsonElems parsed = some elems
        ∧ (elems.length != dialogue.length) = false
        ∧ elems.mapM jsonLen = some obs
        ∧ ((obs.zip (dialogue.map (fun s => s.lines.length))).any (fun p => p.1 != p.2)) = false
        ∧ (elems.any (fun s => !s.isArr)) = false := by
  intro gas
  induction gas with
  | zero =>
    intro prompt cost attempts parsed c h
    by_cases hatt : attempts + 1 > 10
    · rw [translate_loop_stop _ _ _ _ _ _ _ _ _ hatt] at h; cases h
    · rw [translate_loop_zero] at h; cases h
  | succ g ih =>
    intro prompt cost attempts parsed c h
    by_cases hatt : attempts + 1 > 10
    · rw [translate_loop_stop _ _ _ _ _ _ _ _ _ hatt] at h; cases h
    · rw [translate_loop_succ _ _ _ _ _ _ _ _ _ hatt] at h
      cases hstep : loop_step loads dialogue segIns pattern prompt cost (oracle (attempts + 1)) with
      | interrupted => rw [hstep] at h; cases h
      | retry p1 c1 =>
        rw [hstep] at h
        simp only at h
        exact ih p1 c1 (attempts + 1) parsed c h
      | success parsed1 c1 =>
        rw [hstep] at h
        simp only at h
        cases h
        exact (loop_step_success_props loads dialogue segIns pattern prompt cost _ _ _ hstep).2

theorem translate_loop_succ_intr (oracle : Nat → CallOutcome) (loads : Str → Option Json)
    (dialogue : List Speech) (segIns : Str) (pattern : List Nat)
    (gas : Nat) (prompt : Str) (cost : ℤ) (attempts : Nat) (hatt : ¬ attempts + 1 > 10)
    (hstep : loop_step loads dialogue segIns pattern prompt cost (oracle (attempts + 1)) = .interrupted) :
    translate_loop oracle loads dialogue segIns pattern (gas + 1) prompt cost attempts
      = (.exitClean, [⟨prompt, oracle (attempts + 1)⟩]) := by
  rw [translate_loop_succ _ _ _ _ _ _ _ _ _ hatt, hstep]

theorem translate_loop_succ_retry (oracle : Nat → CallOutcome) (loads : Str → Option Json)
    (dialogue : List Speech) (segIns : Str) (pattern : List Nat)
    (gas : Nat) (prompt : Str) (cost : ℤ) (attempts : Nat) (p1 : Str) (c1 : ℤ)
    (hatt : ¬ attempts + 1 > 10)
    (hstep : loop_step loads dialogue segIns pattern prompt cost (oracle (attempts + 1)) = .retry p1 c1) :
    translate_loop oracle loads dialogue segIns pattern (gas + 1) prompt cost attempts
      = ((translate_loop oracle loads dialogue segIns pattern gas p1 c1 (attempts + 1)).1,
         ⟨prompt, oracle (attempts + 1)⟩
           :: (translate_loop oracle loads dialogue segIns pattern gas p1 c1 (attempts + 1)).2) := by
  rw [translate_loop_succ _ _ _ _ _ _ _ _ _ hatt, hstep]

theorem translate_loop_succ_success (oracle : Nat → CallOutcome) (loads : Str → Option Json)
    (dialogue : List Speech) (segIns : Str) (pattern : List Nat)
    (gas : Nat) (prompt : Str) (cost : ℤ) (attempts : Nat) (parsed : Json) (c1 : ℤ)
    (hatt : ¬ attempts + 1 > 10)
    (hstep : loop_step loads dialogue segIns pattern prompt cost (oracle (attempts + 1)) = .success parsed c1) :
    translate_loop oracle loads dialogue segIns pattern (gas + 1) prompt cost attempts
      = (.result parsed c1, [⟨prompt, oracle (attempts + 1)⟩]) := by
  rw [translate_loop_succ _ _ _ _ _ _ _ _ _ hatt, hstep]

/-- A user interrupt consumed by the loop ends the run at once: the result
is the clean exit and the interrupted call is the last call issued. -/
theorem translate_loop_interrupt (oracle : Nat → CallOutcome) (loads : Str → Option Json)
    (dialogue : List Speech) (segIns : Str) (pattern : List Nat) :
    ∀ (gas : Nat) (prompt : Str) (cost : ℤ) (attempts : Nat) (cr : CallRecord),
      cr ∈ (translate_loop oracle loads dialogue segIns pattern gas prompt cost attempts).2 →
      cr.outcome = .interrupt →
      (translate_loop oracle loads dialogue segIns pattern gas prompt cost attempts).1 = .exitClean
      ∧ (translate_loop oracle loads dialogue segIns pattern gas prompt cost attempts).2.getLast? = some cr := by
  intro gas
  induction gas with
  | zero =>
    intro prompt cost attempts cr hmem _
    by_cases hatt : attempts + 1 > 10
    · rw [translate_loop_stop _ _ _ _ _ _ _ _ _ hatt] at hmem; cases hmem
    · rw [translate_loop_zero] at hmem; cases hmem
  | succ g ih =>
    intro prompt cost attempts cr hmem hint
    by_cases hatt : attempts + 1 > 10
    · rw [translate_loop_stop _ _ _ _ _ _ _ _ _ hatt] at hmem; cases hmem
    · cases hstep : loop_step loads dialogue segIns pattern prompt cost (oracle (attempts + 1)) with
      | interrupted =>
        rw [translate_loop_succ_intr _ _ _ _ _ _ _ _ _ hatt hstep] at hmem ⊢
        simp only [List.mem_singleton] at hmem
        subst hmem
        exact ⟨rfl, rfl⟩
      | retry p1 c1 =>
        rw [translate_loop_succ_retry _ _ _ _ _ _ _ _ _ _ _ hatt hstep] at hmem ⊢
        simp only [List.mem_cons] at hmem
        rcases hmem with hmem | hmem
        · exfalso
          have hor : oracle (attempts + 1) = .interrupt := by subst hmem; exact hint
          have hi : loop_step loads dialogue segIns pattern prompt cost (oracle (attempts + 1)) = .interrupted :=
            (loop_step_interrupted_iff loads dialogue segIns pattern prompt cost _).mpr hor
          rw [hstep] at hi; cases hi
        · have hih := ih p1 c1 (attempts + 1) cr hmem hint
          refine ⟨hih.1, ?_⟩
          have hne : (translate_loop oracle loads dialogue segIns pattern g p1 c1 (attempts + 1)).2 ≠ [] := by
            intro hnil
            rw [hnil] at hmem
            cases hmem
          obtain ⟨c, cs, hcons⟩ := List.exists_cons_of_ne_nil hne
          rw [hcons, List.getLast?_cons_cons, ← hcons]
          exact hih.2
      | success parsed1 c1 =>
        rw [translate_loop_succ_success _ _ _ _ _ _ _ _ _ _ _ hatt hstep] at hmem
        simp only [List.mem_singleton] at hmem
        exfalso
        subst hmem
        have hor : oracle (attempts + 1) = .interrupt := hint
        have hi : loop_step loads dialogue segIns pattern prompt cost (oracle (attempts + 1)) = .interrupted :=
          (loop_step_interrupted_iff loads dialogue segIns pattern prompt cost _).mpr hor
        rw [hstep] at hi; cases hi

/-- After an attempt that fails with an exception (gateway or parse failure,
or a `TypeError` during validation/corrective construction), the next call —
if one is issued — reuses exactly the same prompt. -/
theorem translate_loop_exception_prompt (oracle : Nat → CallOutcome) (loads : Str → Option Json)
    (dialogue : List Speech) (segIns : Str) (pattern : List Nat) :
    ∀ (gas : Nat) (prompt : Str) (cost : ℤ) (attempts : Nat) (k : Nat) (cr cr' : CallRecord),
      (translate_loop oracle loads dialogue segIns pattern gas prompt cost attempts).2.get? k = some cr →
      (translate_loop oracle loads dialogue segIns pattern gas prompt cost attempts).2.get? (k + 1) = some cr' →
      attempt_exception loads cr.outcome = true →
      cr'.prompt = cr.prompt := by
  intro gas
  induction gas with
  | zero =>
    intro prompt cost attempts k cr cr' h1 _ _
    by_cases hatt : attempts + 1 > 10
    · rw [translate_loop_stop _ _ _ _ _ _ _ _ _ hatt] at h1; cases h1
    · rw [translate_loop_zero] at h1; cases h1
  | succ g ih =>
    intro prompt cost attempts k cr cr' h1 h2 hexc
    by_cases hatt : attempts + 1 > 10
    · rw [translate_loop_stop _ _ _ _ _ _ _ _ _ hatt] at h1; cases h1
    · cases hstep : loop_step loads dialogue segIns pattern prompt cost (oracle (attempts + 1)) with
      | interrupted =>
        rw [translate_loop_succ_intr _ _ _ _ _ _ _ _ _ hatt hstep] at h1 h2
        match k, h1, h2 with
        | 0, _, h2 => cases h2
      | success parsed1 c1 =>
        rw [translate_loop_succ_success _ _ _ _ _ _ _ _ _ _ _ hatt hstep] at h1 h2
        match k, h1, h2 with
        | 0, _, h2 => cases h2
      | retry p1 c1 =>
        rw [translate_loop_succ_retry _ _ _ _ _ _ _ _ _ _ _ hatt hstep] at h1 h2
        match k, h1, h2 with
        | 0, h1, h2 =>
          cases h1
          have hkeep : loop_step loads dialogue segIns pattern prompt cost (oracle (attempts + 1))
              = .retry prompt (cost + outcomeCost (oracle (attempts + 1))) :=
            loop_step_exception_keeps_prompt loads dialogue segIns pattern prompt cost _ hexc
          rw [hstep] at hkeep
          have hp1 : p1 = prompt := by cases hkeep; rfl
          have hhead : (translate_loop oracle loads dialogue segIns pattern g p1 c1 (attempts + 1)).2.head? = some cr' := by
            rw [← List.get?_zero]
            exact h2
          have := translate_loop_head_prompt oracle loads dialogue segIns pattern g p1 c1 (attempts + 1) cr' hhead
          rw [this.1, hp1]
        | k + 1, h1, h2 =>
          exact ih p1 c1 (attempts + 1) k cr cr' h1 h2 hexc

/-- While attempts remain, the loop's next call is always issued, with the
current prompt. -/
theorem translate_loop_head_some (oracle : Nat → CallOutcome) (loads : Str → Option Json)
    (dialogue : List Speech) (segIns : Str) (pattern : List Nat)
    (gas : Nat) (prompt : Str) (cost : ℤ) (attempts : Nat) (hatt : ¬ attempts + 1 > 10) :
    (translate_loop oracle loads dialogue segIns pattern (gas + 1) prompt cost attempts).2.head?
      = some ⟨prompt, oracle (attempts + 1)⟩ := by
  cases hstep : loop_step loads dialogue segIns pattern prompt cost (oracle (attempts + 1)) with
  | interrupted => rw [translate_loop_succ_intr _ _ _ _ _ _ _ _ _ hatt hstep]; rfl
  | retry p1 c1 => rw [translate_loop_succ_retry _ _ _ _ _ _ _ _ _ _ _ hatt hstep]; rfl
  | success parsed1 c1 => rw [translate_loop_succ_success _ _ _ _ _ _ _ _ _ _ _ hatt hstep]; rfl

/-- A first response that parses but fails the shape validation (with a
computable observed schema) forces a second gateway call, whose prompt is
exactly the corrective prompt built from the parsed response and the
observed per-speech lengths. -/
theorem translate_loop_mismatch_second_call (oracle : Nat → CallOutcome) (loads : Str → Option Json)
    (dialogue : List Speech) (segIns : Str) (pattern : List Nat) (prompt : Str)
    (resp : Response) (parsed : Json) (elems : List Json) (obs : List Nat)
    (h1 : oracle 1 = .ok resp) (h2 : json_parse loads resp.content = some parsed)
    (h3 : jsonElems parsed = some elems) (h4 : elems.mapM jsonLen = some obs)
    (h5 : (elems.length != dialogue.length) = true
          ∨ ((elems.length != dialogue.length) = false
             ∧ (((obs.zip (dialogue.map (fun s => s.lines.length))).any (fun p => p.1 != p.2))
                 || elems.any (fun s => !s.isArr)) = true)) :
    2 ≤ (translate_loop oracle loads dialogue segIns pattern 10 prompt 0 0).2.length
    ∧ (translate_loop oracle loads dialogue segIns pattern 10 prompt 0 0).2.get? 1
        = some ⟨corrective_prompt segIns pattern dialogue parsed obs, oracle 2⟩ := by
  have hatt : ¬ (0 : Nat) + 1 > 10 := by omega
  have hstep : loop_step loads dialogue segIns pattern prompt 0 (oracle (0 + 1))
      = .retry (corrective_prompt segIns pattern dialogue parsed obs) (0 + resp.cost) := by
    have h1' : oracle (0 + 1) = .ok resp := h1
    rw [h1']
    rcases h5 with hb1 | ⟨hb1, hb2⟩
    · exact loop_step_len_mismatch _ _ _ _ _ _ _ _ _ _ h2 h3 h4 hb1
    · exact loop_step_inner_mismatch _ _ _ _ _ _ _ _ _ _ h2 h3 h4 hb1 hb2
  have h10 : (10 : Nat) = 9 + 1 := rfl
  rw [h10, translate_loop_succ_retry _ _ _ _ _ _ _ _ _ _ _ hatt hstep]
  have hatt2 : ¬ (1 : Nat) + 1 > 10 := by omega
  have h9 : (9 : Nat) = 8 + 1 := rfl
  have hhead := translate_loop_head_some oracle loads dialogue segIns pattern 8
    (corrective_prompt segIns pattern dialogue parsed obs) (0 + resp.cost) 1 hatt2
  rw [← h9] at hhead
  constructor
  · have hne : (translate_loop oracle loads dialogue segIns pattern 9
        (corrective_prompt segIns pattern dialogue parsed obs) (0 + resp.cost) 1).2 ≠ [] := by
      intro hnil
      rw [hnil] at hhead
      cases hhead
    have : 1 ≤ (translate_loop oracle loads dialogue segIns pattern 9
        (corrective_prompt segIns pattern dialogue parsed obs) (0 + resp.cost) 1).2.length :=
      List.length_pos.mpr hne
    simpa using Nat.succ_le_succ this
  · simp only [List.get?_cons_succ, List.get?_zero]
    exact hhead

/-! ## List helpers -/

theorem mapM_option_forall₂ {α β : Type} (f : α → Option β) :
    ∀ (l : List α) (res : List β), l.mapM f = some res →
      List.Forall₂ (fun a b => f a = some b) l res := by
  intro l
  induction l with
  | nil =>
    intro res h
    rw [List.mapM_nil] at h
    cases h
    exact List.Forall₂.nil
  | cons a as ih =>
    intro res h
    rw [List.mapM_cons] at h
    cases hfa : f a with
    | none => rw [hfa] at h; cases h
    | some b =>
      rw [hfa] at h
      cases hml : as.mapM f with
      | none => rw [hml] at h; cases h
      | some bs =>
        rw [hml] at h
        cases h
        exact List.Forall₂.cons hfa (ih bs hml)

theorem zip_any_ne_false : ∀ (a b : List Nat), a.length = b.length →
    ((a.zip b).any (fun p => p.1 != p.2)) = false → a = b := by
  intro a
  induction a with
  | nil =>
    intro b hlen _
    cases b with
    | nil => rfl
    | cons x xs => cases hlen
  | cons x xs ih =>
    intro b hlen hany
    cases b with
    | nil => cases hlen
    | cons y ys =>
      simp only [List.zip_cons_cons, List.any_cons, Bool.or_eq_false_iff] at hany
      have hx : x = y := by
        have := hany.1
        simpa using this
      have : xs = ys := ih ys (by simpa using hlen) hany.2
      rw [hx, this]

/-- Every corrective prompt contains both the expected length schema and the
observed length schema, rendered as Python renders them. -/
theorem corrective_prompt_contains_schemas (segIns : Str) (pattern : List Nat)
    (dialogue : List Speech) (translation : Json) (obs : List Nat) :
    (∃ u v, corrective_prompt segIns pattern dialogue translation obs = u ++ pyIntList pattern ++ v)
    ∧ (∃ u v, corrective_prompt segIns pattern dialogue translation obs = u ++ pyIntList obs ++ v) := by
  constructor
  · refine ⟨"### Segmenting Directions\n".toList ++ segIns ++ "\n".toList ++
      "### Instructions\n".toList ++
      "This Latin translation for the game Cave Story does not properly meet the constraints of the original English dialogue. The English length schema is ".toList,
      ", but the Latin is ".toList ++ pyIntList obs ++
      ". Think how to align the Latin to the English, and construct one that follows the length schema. Carefully count your result before returning it.\n".toList ++
      "**Output**: Return JSON with the new dialogue. Write a nested list [[\"...\"]] with ONLY dialogue, no dictionary keys.\n\n".toList ++
      "### ENGLISH\n".toList ++ dumps (dialogueToJson dialogue) ++ "\n\n".toList ++
      "### LATIN\n".toList ++ dumps translation ++ "\n\n".toList, ?_⟩
    simp only [corrective_prompt, List.append_assoc]
  · refine ⟨"### Segmenting Directions\n".toList ++ segIns ++ "\n".toList ++
      "### Instructions\n".toList ++
      "This Latin translation for the game Cave Story does not properly meet the constraints of the original English dialogue. The English length schema is ".toList ++
      pyIntList pattern ++ ", but the Latin is ".toList,
      ". Think how to align the Latin to the English, and construct one that follows the length schema. Carefully count your result before returning it.\n".toList ++
      "**Output**: Return JSON with the new dialogue. Write a nested list [[\"...\"]] with ONLY dialogue, no dictionary keys.\n\n".toList ++
      "### ENGLISH\n".toList ++ dumps (dialogueToJson dialogue) ++ "\n\n".toList ++
      "### LATIN\n".toList ++ dumps translation ++ "\n\n".toList, ?_⟩
    simp only [corrective_prompt, List.append_assoc]

/-- Every corrective prompt starts with `### Segmenti`. -/
theorem corrective_prompt_take12 (segIns : Str) (pattern : List Nat)
    (dialogue : List Speech) (translation : Json) (obs : List Nat) :
    (corrective_prompt segIns pattern dialogue translation obs).take 12 = "### Segmenti".toList := rfl

/-- The original prompt is `CONTEXT` followed by the rest of the template. -/
theorem mkPrompt_eq_context_append (terms styles guide : Json) (segIns : Str)
    (previous_dialogues : List (List Speech)) (dialogue : List Speech) :
    ∃ r, mkPrompt terms styles guide segIns previous_dialogues dialogue = CONTEXT ++ r := by
  refine ⟨"### Global Glossary (Must Use)\n".toList ++ dumps terms ++ "\n\n".toList ++
    "### Character Styles\n".toList ++ dumps styles ++ "\n\n".toList ++
    "### Style Guide\n".toList ++ dumps guide ++ "\n\n".toList ++
    "### Example Input\n".toList ++
    "[\x7b\"Char1\": [\"I see.\r\nI can\x27t do this myself.\", \"Can you?\"]\x7d, \x7b\"Char2\": [\"Yes.\"]\x7d]\n\n".toList ++
    "### Example Output\n".toList ++
    "[[\"Video.\r\\Hoc facere solus nequeo.\", \"Potesne?\"], [\"Possum.\"]]\n".toList ++
    "### Instructions\n".toList ++
    ("1. **Check Context**: Look at the Preceding Dialogues and determine if they provide relevant context or are unrelated. Be wary that, due to the structure of the dialogue files, dialogues may be only coincidentally adjacent.\n" ++
     "2. **Analyze**: Determine the grammatical structure (Subject, Object, Verb) of the Dialogue to Translate.\n" ++
     "3. **Translate**: Translate the thought into idiomatic Classical Latin. Avoid literalism (e.g., \x27Ede clavem\x27 is wrong; use \x27Dede\x27 or \x27Trade\x27). Fix morphology (e.g., \x27Interfice\x27 not \x27Redinterface\x27). Ensure all words are real, properly inflected Latin words (avoid neologisms unless absolutely necessary for clarity). Overall, prioritize Latin accuracy and intelligibility over structural fidelity to the English. Adhere to the style guide.\n" ++
     "4. ").toList ++ segIns ++ "\n".toList ++
    "5. **Output**: Return JSON with the new dialogue. Write a nested list [[\"...\"]] with ONLY dialogue, no dictionary keys ([\x7b\"NP\": [\"...\"]\x7d] -> [[\"...\"]]). Follow the example given.\n\n".toList ++
    "### Preceding Dialogues in File\n".toList ++
    dumps (.arr (previous_dialogues.map dialogueToJson)) ++ "\n\n".toList ++
    "### Dialogue to Translate\n".toList ++
    dumps (dialogueToJson dialogue), ?_⟩
  simp only [mkPrompt, List.append_assoc]

/-- Every original prompt starts with `### CONTEXT` followed by a newline;
in particular no original prompt is a corrective prompt. -/
theorem mkPrompt_take12 (terms styles guide : Json) (segIns : Str)
    (previous_dialogues : List (List Speech)) (dialogue : List Speech) :
    (mkPrompt terms styles guide segIns previous_dialogues dialogue).take 12 = "### CONTEXT\n".toList := by
  obtain ⟨r, hr⟩ := mkPrompt_eq_context_append terms styles guide segIns previous_dialogues dialogue
  rw [hr, List.take_append_of_le_length (by decide)]
  rfl

/-- Unfolding `translate_dialogue`: when it does not crash on the summary
lookups, it runs the loop on the original prompt with 10 allowed attempts. -/
theorem translate_dialogue_eq (oracle : Nat → CallOutcome) (loads : Str → Option Json)
    (summary : Json) (previous : List (List Speech)) (dialogue : List Speech)
    (r : RunResult × List CallRecord)
    (h : translate_dialogue oracle loads summary previous dialogue = some r) :
    ∃ terms styles guide,
      jGet summary "terms".toList = some terms
      ∧ jGet summary "character_styles".toList = some styles
      ∧ jGet summary "style_guide".toList = some guide
      ∧ r = translate_loop oracle loads dialogue
          (segment_instructions dialogue (dialogue.map (fun s => s.lines.length)))
          (dialogue.map (fun s => s.lines.length)) 10
          (mkPrompt terms styles guide
            (segment_instructions dialogue (dialogue.map (fun s => s.lines.length)))
            previous dialogue) 0 0 := by
  unfold translate_dialogue at h
  cases hterms : jGet summary "terms".toList with
  | none => rw [hterms] at h; cases h
  | some terms =>
    rw [hterms] at h
    cases hstyles : jGet summary "character_styles".toList with
    | none => rw [hstyles] at h; cases h
    | some styles =>
      rw [hstyles] at h
      cases hguide : jGet summary "style_guide".toList with
      | none => rw [hguide] at h; cases h
      | some guide =>
        rw [hguide] at h
        simp only [Option.bind_eq_bind, Option.some_bind, Option.pure_def, Option.some.injEq] at h
        exact ⟨terms, styles, guide, rfl, rfl, rfl, h.symm⟩

/-! ## C2: the attempt ceiling -/

/-- C2: when every allowed attempt fails (by exception, parse failure, or
shape mismatch), `translate_dialogue` issues exactly 10 Model Gateway calls
and then terminates the process with a failure exit status instead of
issuing an 11th; no partial result is returned (the run result is
`exitFail`, which carries no translation). -/
theorem translate_dialogue_attempt_ceiling (oracle : Nat → CallOutcome) (loads : Str → Option Json)
    (dialogue : List Speech)
    (h10 : ∀ k, 1 ≤ k → k ≤ 10 → attempt_fails loads dialogue (oracle k) = true) :
    (∀ (segIns : Str) (pattern : List Nat) (prompt : Str),
      (translate_loop oracle loads dialogue segIns pattern 10 prompt 0 0).1 = .exitFail
      ∧ (translate_loop oracle loads dialogue segIns pattern 10 prompt 0 0).2.length = 10)
    ∧ (∀ (summary : Json) (previous : List (List Speech)) (r : RunResult × List CallRecord),
        translate_dialogue oracle loads summary previous dialogue = some r →
        r.1 = .exitFail ∧ r.2.length = 10) := by
  have hloop : ∀ (segIns : Str) (pattern : List Nat) (prompt : Str),
      (translate_loop oracle loads dialogue segIns pattern 10 prompt 0 0).1 = .exitFail
      ∧ (translate_loop oracle loads dialogue segIns pattern 10 prompt 0 0).2.length = 10 :=
    fun segIns pattern prompt =>
      translate_loop_all_fail oracle loads dialogue segIns pattern 10 prompt 0 0 (by omega)
        (fun k hk1 hk2 => h10 k (by omega) hk2)
  refine ⟨hloop, ?_⟩
  intro summary previous r hr
  obtain ⟨terms, styles, guide, _, _, _, hreq⟩ :=
    translate_dialogue_eq oracle loads summary previous dialogue r hr
  rw [hreq]
  exact hloop _ _ _

/-- Witness for C2: a gateway that raises on every call makes
`translate_dialogue` (here: its loop, on any prompt) exit with failure after
exactly 10 calls. -/
theorem translate_dialogue_attempt_ceiling_witness :
    (∀ k, 1 ≤ k → k ≤ 10 → attempt_fails loads0 exDialogue1 (exOracleExn k) = true)
    ∧ (translate_loop exOracleExn loads0 exDialogue1 "s".toList [1] 10 "p".toList 0 0).1 = .exitFail
    ∧ (translate_loop exOracleExn loads0 exDialogue1 "s".toList [1] 10 "p".toList 0 0).2.length = 10 :=
  ⟨fun _ _ _ => rfl,
   (translate_dialogue_attempt_ceiling exOracleExn loads0 exDialogue1
      (fun _ _ _ => rfl)).1 "s".toList [1] "p".toList⟩

/-! ## C9: user cancellation exits cleanly -/

/-- C9: a user interrupt raised at any point in the attempt loop (modelled
as the outcome of the pending gateway call, the only point where the source
can observe it) makes the run exit immediately with the clean status 0: the
interrupted call is the last call of the run and the result is `exitClean`
(no error value). -/
theorem translate_dialogue_interrupt_clean (oracle : Nat → CallOutcome) (loads : Str → Option Json)
    (dialogue : List Speech) :
    (∀ (segIns : Str) (pattern : List Nat) (gas : Nat) (prompt : Str) (cost : ℤ)
        (attempts : Nat) (cr : CallRecord),
      cr ∈ (translate_loop oracle loads dialogue segIns pattern gas prompt cost attempts).2 →
      cr.outcome = .interrupt →
      (translate_loop oracle loads dialogue segIns pattern gas prompt cost attempts).1 = .exitClean
      ∧ (translate_loop oracle loads dialogue segIns pattern gas prompt cost attempts).2.getLast? = some cr)
    ∧ (∀ (summary : Json) (previous : List (List Speech)) (r : RunResult × List CallRecord)
        (cr : CallRecord),
      translate_dialogue oracle loads summary previous dialogue = some r →
      cr ∈ r.2 → cr.outcome = .interrupt →
      r.1 = .exitClean ∧ r.2.getLast? = some cr) := by
  refine ⟨fun segIns pattern gas prompt cost attempts cr hmem hint =>
    translate_loop_interrupt oracle loads dialogue segIns pattern gas prompt cost attempts cr hmem hint, ?_⟩
  intro summary previous r cr hr hmem hint
  obtain ⟨terms, styles, guide, _, _, _, hreq⟩ :=
    translate_dialogue_eq oracle loads summary previous dialogue r hr
  rw [hreq] at hmem ⊢
  exact translate_loop_interrupt oracle loads dialogue _ _ 10 _ 0 0 cr hmem hint

/-- Witness for C9: two failed calls, then an interrupt during the third
call; the loop exits cleanly and the interrupted call is the last. -/
theorem translate_dialogue_interrupt_clean_witness :
    (⟨"p".toList, .interrupt⟩ : CallRecord)
        ∈ (translate_loop exOracleInterrupt loads0 exDialogue1 "s".toList [1] 10 "p".toList 0 0).2
    ∧ (translate_loop exOracleInterrupt loads0 exDialogue1 "s".toList [1] 10 "p".toList 0 0).1 = .exitClean
    ∧ (translate_loop exOracleInterrupt loads0 exDialogue1 "s".toList [1] 10 "p".toList 0 0).2.getLast?
        = some ⟨"p".toList, .interrupt⟩ := by
  have hmem : (⟨"p".toList, .interrupt⟩ : CallRecord)
      ∈ (translate_loop exOracleInterrupt loads0 exDialogue1 "s".toList [1] 10 "p".toList 0 0).2 := by
    decide
  exact ⟨hmem,
    (translate_dialogue_interrupt_clean exOracleInterrupt loads0 exDialogue1).1
      "s".toList [1] 10 "p".toList 0 0 ⟨"p".toList, .interrupt⟩ hmem rfl⟩

/-! ## C1: shape of a returned Translation Result -/

/-- C1 (amended): whenever `translate_dialogue` returns a Translation Result,
the result has Python length equal to the number of Speeches, and element
`i` is a JSON list whose length is the number of Lines of source Speech `i`;
when the source block is nonempty this forces the result itself to be a JSON
list (of lists) — but an *empty* block accepts any length-0 sized JSON value
(e.g. `{}`), so the result need not be a list in that degenerate case. -/
theorem translate_dialogue_result_shape (oracle : Nat → CallOutcome) (loads : Str → Option Json)
    (summary : Json) (previous : List (List Speech)) (dialogue : List Speech)
    (parsed : Json) (c : ℤ) (r : RunResult × List CallRecord)
    (h : translate_dialogue oracle loads summary previous dialogue = some r)
    (hres : r.1 = .result parsed c) :
    ∃ elems, jsonElems parsed = some elems
      ∧ elems.length = dialogue.length
      ∧ (∀ i (hi : i < elems.length) (hi' : i < dialogue.length),
          ∃ li, elems.get ⟨i, hi⟩ = .arr li
            ∧ li.length = (dialogue.get ⟨i, hi'⟩).lines.length)
      ∧ (dialogue ≠ [] → ∃ l, parsed = .arr l) := by
  obtain ⟨terms, styles, guide, _, _, _, hreq⟩ :=
    translate_dialogue_eq oracle loads summary previous dialogue r h
  rw [hreq] at hres
  obtain ⟨elems, obs, hje, hb1, hml, hz, ha⟩ :=
    translate_loop_result_shape oracle loads dialogue _ _ 10 _ 0 0 parsed c hres
  have hlen : elems.length = dialogue.length := by
    simpa using hb1
  have hf := mapM_option_forall₂ jsonLen elems obs hml
  have hlen2 : elems.length = obs.length := hf.length_eq
  have hobs : obs = dialogue.map (fun s => s.lines.length) := by
    refine zip_any_ne_false obs (dialogue.map (fun s => s.lines.length)) ?_ hz
    rw [← hlen2, hlen, List.length_map]
  subst hobs
  have harr : ∀ e ∈ elems, e.isArr = true := by
    intro e hmem
    by_contra hne
    have : elems.any (fun s => !s.isArr) = true :=
      List.any_eq_true.mpr ⟨e, hmem, by simp [Bool.eq_false_iff.mpr hne]⟩
    rw [this] at ha
    cases ha
  refine ⟨elems, hje, hlen, ?_, ?_⟩
  · intro i hi hi'
    have hmem : elems.get ⟨i, hi⟩ ∈ elems := List.get_mem elems i hi
    have hiarr := harr _ hmem
    cases he : elems.get ⟨i, hi⟩ with
    | arr li =>
      refine ⟨li, rfl, ?_⟩
      have hio : i < (dialogue.map (fun s => s.lines.length)).length := by omega
      have hr := hf.get hi hio
      rw [he] at hr
      have hlen3 : li.length = (dialogue.map (fun s => s.lines.length)).get ⟨i, hio⟩ :=
        Option.some.inj hr
      rw [hlen3]
      simp [List.getElem_map]
    | null => rw [he] at hiarr; cases hiarr
    | bool b => rw [he] at hiarr; cases hiarr
    | num n => rw [he] at hiarr; cases hiarr
    | str s => rw [he] at hiarr; cases hiarr
    | obj kvs => rw [he] at hiarr; cases hiarr
  · intro hne
    have hpos : 0 < elems.length := by
      rw [hlen]
      exact List.length_pos.mpr hne
    cases parsed with
    | arr l => exact ⟨l, rfl⟩
    | null => cases hje
    | bool b => cases hje
    | num n => cases hje
    | str s =>
      exfalso
      have helems : elems = s.map (fun ch => Json.str [ch]) := by
        have : jsonElems (.str s) = some (s.map (fun ch => Json.str [ch])) := rfl
        rw [this] at hje
        exact (Option.some.inj hje).symm
      obtain ⟨e, hmem⟩ := List.exists_mem_of_length_pos hpos
      have := harr e hmem
      rw [helems] at hmem
      obtain ⟨ch, _, hch⟩ := List.mem_map.mp hmem
      rw [← hch] at this
      cases this
    | obj kvs =>
      exfalso
      have helems : elems = kvs.map (fun kv => Json.str kv.1) := by
        have : jsonElems (.obj kvs) = some (kvs.map (fun kv => Json.str kv.1)) := rfl
        rw [this] at hje
        exact (Option.some.inj hje).symm
      obtain ⟨e, hmem⟩ := List.exists_mem_of_length_pos hpos
      have := harr e hmem
      rw [helems] at hmem
      obtain ⟨kv, _, hkv⟩ := List.mem_map.mp hmem
      rw [← hkv] at this
      cases this

/-- Counterexample to C1 as stated: for the empty Dialogue Block, a model
response of `{}` (valid JSON of Python length 0) passes the shape validation
and is returned as the Translation Result — but it is a dict, not a sequence
of lists. -/
theorem translate_dialogue_result_not_list_counterexample :
    ((translate_dialogue exOracleEmptyObj loads0 exSummary [] []).map (fun r => r.1))
      = some (.result (.obj []) 1)
    ∧ Json.isArr (.obj []) = false := by
  constructor
  · rfl
  · rfl

/-- Witness for C1 (amended) at a conforming run for the one-speech,
one-line block. -/
theorem translate_dialogue_result_shape_witness :
    (∃ r, translate_dialogue exOracleGood loads0 exSummary [] exDialogue1 = some r
      ∧ r.1 = .result (.arr [.arr [.str "x".toList]]) 1)
    ∧ (∃ elems, jsonElems (.arr [.arr [.str "x".toList]]) = some elems
        ∧ elems.length = exDialogue1.length
        ∧ (∀ i (hi : i < elems.length) (hi' : i < exDialogue1.length),
            ∃ li, elems.get ⟨i, hi⟩ = .arr li
              ∧ li.length = (exDialogue1.get ⟨i, hi'⟩).lines.length)
        ∧ (exDialogue1 ≠ [] → ∃ l, (Json.arr [.arr [.str "x".toList]]) = .arr l)) := by
  have hrun : ((translate_dialogue exOracleGood loads0 exSummary [] exDialogue1).map (fun r => r.1))
      = some (.result (.arr [.arr [.str "x".toList]]) 1) := rfl
  cases hr : translate_dialogue exOracleGood loads0 exSummary [] exDialogue1 with
  | none => rw [hr] at hrun; cases hrun
  | some r =>
    rw [hr] at hrun
    simp only [Option.map_some', Option.some.injEq] at hrun
    exact ⟨⟨r, rfl, hrun⟩,
      translate_dialogue_result_shape exOracleGood loads0 exSummary [] exDialogue1 _ _ r hr hrun⟩

/-! ## C3: shape mismatch triggers a corrective second call -/

/-- C3 (amended): a first response that parses as JSON and fails the shape
validation, *provided every top-level element supports `len()`* (so the
observed schema `[len(s) for s in translation]` is computable), forces at
least one further gateway call, and that next call's prompt is the
corrective prompt, which contains both the expected per-speech line-count
schema and the observed schema.  (When some element has no `len()`, the
corrective construction itself raises and the retry is bare — see the
counterexample.) -/
theorem translate_dialogue_mismatch_corrective (oracle : Nat → CallOutcome)
    (loads : Str → Option Json) (dialogue : List Speech)
    (resp : Response) (parsed : Json) (elems : List Json) (obs : List Nat)
    (h1 : oracle 1 = .ok resp) (h2 : json_parse loads resp.content = some parsed)
    (h3 : jsonElems parsed = some elems) (h4 : elems.mapM jsonLen = some obs)
    (h5 : (elems.length != dialogue.length) = true
          ∨ ((elems.length != dialogue.length) = false
             ∧ (((obs.zip (dialogue.map (fun s => s.lines.length))).any (fun p => p.1 != p.2))
                 || elems.any (fun s => !s.isArr)) = true)) :
    (∀ (segIns : Str) (pattern : List Nat) (prompt : Str),
      2 ≤ (translate_loop oracle loads dialogue segIns pattern 10 prompt 0 0).2.length
      ∧ (translate_loop oracle loads dialogue segIns pattern 10 prompt 0 0).2.get? 1
          = some ⟨corrective_prompt segIns pattern dialogue parsed obs, oracle 2⟩
      ∧ (∃ u v, corrective_prompt segIns pattern dialogue parsed obs = u ++ pyIntList pattern ++ v)
      ∧ (∃ u v, corrective_prompt segIns pattern dialogue parsed obs = u ++ pyIntList obs ++ v))
    ∧ (∀ (summary : Json) (previous : List (List Speech)) (r : RunResult × List CallRecord),
        translate_dialogue oracle loads summary previous dialogue = some r →
        2 ≤ r.2.length
        ∧ r.2.get? 1 = some ⟨corrective_prompt
            (segment_instructions dialogue (dialogue.map (fun s => s.lines.length)))
            (dialogue.map (fun s => s.lines.length)) dialogue parsed obs, oracle 2⟩) := by
  have hloop : ∀ (segIns : Str) (pattern : List Nat) (prompt : Str),
      2 ≤ (translate_loop oracle loads dialogue segIns pattern 10 prompt 0 0).2.length
      ∧ (translate_loop oracle loads dialogue segIns pattern 10 prompt 0 0).2.get? 1
          = some ⟨corrective_prompt segIns pattern dialogue parsed obs, oracle 2⟩ :=
    fun segIns pattern prompt =>
      translate_loop_mismatch_second_call oracle loads dialogue segIns pattern prompt
        resp parsed elems obs h1 h2 h3 h4 h5
  refine ⟨fun segIns pattern prompt =>
    ⟨(hloop segIns pattern prompt).1, (hloop segIns pattern prompt).2,
     (corrective_prompt_contains_schemas segIns pattern dialogue parsed obs).1,
     (corrective_prompt_contains_schemas segIns pattern dialogue parsed obs).2⟩, ?_⟩
  intro summary previous r hr
  obtain ⟨terms, styles, guide, _, _, _, hreq⟩ :=
    translate_dialogue_eq oracle loads summary previous dialogue r hr
  rw [hreq]
  exact hloop _ _ _

/-- Witness for C3 (amended): against the `[2, 1]` block, a first response
of shape `[1, 1]` makes the second call use the corrective prompt built from
it; the corrective prompt contains `[2, 1]` and `[1, 1]`. -/
theorem translate_dialogue_mismatch_corrective_witness :
    2 ≤ (translate_loop exOracleMismatch loads0 exDialogue2 "s".toList [2, 1] 10 "p".toList 0 0).2.length
    ∧ (translate_loop exOracleMismatch loads0 exDialogue2 "s".toList [2, 1] 10 "p".toList 0 0).2.get? 1
        = some ⟨corrective_prompt "s".toList [2, 1] exDialogue2
            (.arr [.arr [.str "a".toList], .arr [.str "b".toList]]) [1, 1], exOracleMismatch 2⟩
    ∧ (∃ u v, corrective_prompt "s".toList [2, 1] exDialogue2
        (.arr [.arr [.str "a".toList], .arr [.str "b".toList]]) [1, 1] = u ++ pyIntList [2, 1] ++ v)
    ∧ (∃ u v, corrective_prompt "s".toList [2, 1] exDialogue2
        (.arr [.arr [.str "a".toList], .arr [.str "b".toList]]) [1, 1] = u ++ pyIntList [1, 1] ++ v) :=
  (translate_dialogue_mismatch_corrective exOracleMismatch loads0 exDialogue2
      ⟨"[[\"a\"], [\"b\"]]".toList, 1⟩
      (.arr [.arr [.str "a".toList], .arr [.str "b".toList]])
      [.arr [.str "a".toList], .arr [.str "b".toList]] [1, 1]
      rfl rfl rfl rfl
      (Or.inr ⟨rfl, rfl⟩)).1 "s".toList [2, 1] "p".toList

/-- Counterexample to C3 as stated: the first response `[5]` parses as JSON
and has a mismatched shape (length 1 against 2 speeches), yet no corrective
prompt is used for the next call: computing the observed schema raises a
`TypeError` (`len(5)`), the `except` clause catches it, and the second call
resubmits the original prompt (both issued prompts start with
`### CONTEXT`, whereas every corrective prompt starts with
`### Segmenting Directions` — see `corrective_prompt_take12`). -/
theorem translate_dialogue_mismatch_corrective_counterexample :
    ((translate_dialogue exOracleBadElem loads0 exSummary [] exDialogue2).map
        (fun r => (r.2.map (fun cr => cr.prompt.take 12), r.2.map (fun cr => outcomeKind cr.outcome), r.1)))
      = some (["### CONTEXT\n".toList, "### CONTEXT\n".toList], [0, 0],
              .result (.arr [.arr [.str "a".toList, .str "b".toList], .arr [.str "c".toList]]) 3)
    ∧ ("### CONTEXT\n".toList : Str) ≠ "### Segmenti".toList := by
  constructor
  · rfl
  · decide

/-! ## C4: exceptions cause a bare retry with the current prompt -/

/-- C4 (amended): whenever an attempt fails with a gateway or parse
exception (any exception other than a user cancellation — including a
`TypeError` while validating or while building the corrective prompt), the
next call, if issued, resubmits exactly the prompt of the failed attempt,
with no corrective feedback added.  That prompt is the *current* prompt
variable: the original prompt only as long as no earlier shape mismatch has
replaced it with a corrective prompt (see the counterexample). -/
theorem translate_dialogue_exception_bare_retry (oracle : Nat → CallOutcome)
    (loads : Str → Option Json) (dialogue : List Speech) :
    (∀ (segIns : Str) (pattern : List Nat) (gas : Nat) (prompt : Str) (cost : ℤ)
        (attempts k : Nat) (cr cr' : CallRecord),
      (translate_loop oracle loads dialogue segIns pattern gas prompt cost attempts).2.get? k = some cr →
      (translate_loop oracle loads dialogue segIns pattern gas prompt cost attempts).2.get? (k + 1) = some cr' →
      attempt_exception loads cr.outcome = true →
      cr'.prompt = cr.prompt)
    ∧ (∀ (summary : Json) (previous : List (List Speech)) (r : RunResult × List CallRecord)
        (k : Nat) (cr cr' : CallRecord),
      translate_dialogue oracle loads summary previous dialogue = some r →
      r.2.get? k = some cr → r.2.get? (k + 1) = some cr' →
      attempt_exception loads cr.outcome = true →
      cr'.prompt = cr.prompt) := by
  refine ⟨fun segIns pattern gas prompt cost attempts k cr cr' h1 h2 hexc =>
    translate_loop_exception_prompt oracle loads dialogue segIns pattern gas prompt cost attempts k cr cr' h1 h2 hexc, ?_⟩
  intro summary previous r k cr cr' hr h1 h2 hexc
  obtain ⟨terms, styles, guide, _, _, _, hreq⟩ :=
    translate_dialogue_eq oracle loads summary previous dialogue r hr
  rw [hreq] at h1 h2
  exact translate_loop_exception_prompt oracle loads dialogue _ _ 10 _ 0 0 k cr cr' h1 h2 hexc

/-- Witness for C4 (amended): two consecutive raising calls; the second call
reuses the first call's prompt. -/
theorem translate_dialogue_exception_bare_retry_witness :
    (translate_loop exOracleInterrupt loads0 exDialogue1 "s".toList [1] 10 "p".toList 0 0).2.get? 0
        = some ⟨"p".toList, .exn⟩
    ∧ (translate_loop exOracleInterrupt loads0 exDialogue1 "s".toList [1] 10 "p".toList 0 0).2.get? 1
        = some ⟨"p".toList, .exn⟩
    ∧ attempt_exception loads0 CallOutcome.exn = true
    ∧ (⟨"p".toList, .exn⟩ : CallRecord).prompt = (⟨"p".toList, .exn⟩ : CallRecord).prompt :=
  ⟨rfl, rfl, rfl,
   (translate_dialogue_exception_bare_retry exOracleInterrupt loads0 exDialogue1).1
     "s".toList [1] 10 "p".toList 0 0 0 ⟨"p".toList, .exn⟩ ⟨"p".toList, .exn⟩ rfl rfl rfl⟩

/-- Counterexample to C4 as stated: after a first-call shape mismatch has
replaced the prompt with a corrective prompt, a gateway exception on the
second call is retried with that *corrective* prompt, not the unmodified
original: call 2 (an exception, kind 1) and call 3 both use a prompt
starting `### Segmenting Directions`, while the original prompt of call 1
starts `### CONTEXT`. -/
theorem translate_dialogue_exception_bare_retry_counterexample :
    ((translate_dialogue exOracleMismatchExn loads0 exSummary [] exDialogue1).map
        (fun r => (r.2.map (fun cr => cr.prompt.take 12), r.2.map (fun cr => outcomeKind cr.outcome))))
      = some (["### CONTEXT\n".toList, "### Segmenti".toList, "### Segmenti".toList], [0, 1, 0])
    ∧ ("### Segmenti".toList : Str) ≠ "### CONTEXT\n".toList := by
  constructor
  · rfl
  · decide

/-! ## C5: write-back replaces only the innermost line text -/

theorem write_lines_spec : ∀ (tl : List (List Json)) (ts : List Json),
    ts.length = tl.length → (∀ l ∈ tl, l ≠ []) →
    ∃ tl', write_lines tl ts = some tl'
      ∧ List.Forall₂ (fun l l' => (l' : List Json).length = l.length ∧ l'.tail = l.tail) tl tl' := by
  intro tl
  induction tl with
  | nil =>
    intro ts hlen _
    cases ts with
    | nil => exact ⟨[], rfl, List.Forall₂.nil⟩
    | cons t ts' => cases hlen
  | cons l tl ih =>
    intro ts hlen hne
    cases ts with
    | nil => cases hlen
    | cons t ts' =>
      have hl : l ≠ [] := hne l (by simp)
      obtain ⟨a, rest, rfl⟩ := List.exists_cons_of_ne_nil hl
      obtain ⟨tl', htl', hf⟩ := ih ts' (by simpa using hlen) (fun x hx => hne x (by simp [hx]))
      refine ⟨(t :: rest) :: tl', ?_, ?_⟩
      · simp only [write_lines, write_line, Option.bind_eq_bind, Option.some_bind, htl']
        rfl
      · exact List.Forall₂.cons (by simp) hf

theorem write_speeches_spec : ∀ (items : List Json) (dl : DialogueB),
    List.Forall₂ (fun it sp => ∃ sx, jsonElems it = some sx ∧ sx.length = sp.text.length) items dl →
    (∀ sp ∈ dl, ∀ l ∈ sp.text, l ≠ []) →
    ∃ dl', write_speeches dl items = some dl'
      ∧ List.Forall₂ (fun sp sp' =>
          (sp' : RawSpeech).character = sp.character
          ∧ sp'.text.length = sp.text.length
          ∧ List.Forall₂ (fun l l' => (l' : List Json).length = l.length ∧ l'.tail = l.tail)
              sp.text sp'.text) dl dl' := by
  intro items dl hsh
  induction hsh with
  | nil =>
    intro _
    exact ⟨[], rfl, List.Forall₂.nil⟩
  | @cons it sp items' dl' hhead htail ih =>
    intro hne
    obtain ⟨sx, hsx, hlen⟩ := hhead
    obtain ⟨text', htext', hft⟩ :=
      write_lines_spec sp.text sx hlen (fun l hl => hne sp (by simp) l hl)
    obtain ⟨rest', hrest', hfr⟩ := ih (fun s hs l hl => hne s (by simp [hs]) l hl)
    refine ⟨{ sp with text := text' } :: rest', ?_, ?_⟩
    · simp only [write_speeches, Option.bind_eq_bind, hsx, Option.some_bind, htext', hrest']
      rfl
    · exact List.Forall₂.cons ⟨rfl, (hft.length_eq).symm, hft⟩ hfr

/-- C5: the write-back of a shape-validated Translation Result into a
Dialogue Block succeeds and replaces only the slot-0 text payload of each
Line: the number of speeches, each speech's character attribution, each
speech's number of Lines, and each Line's length and its elements beyond
slot 0 (the preserved wrapping of the one-element Line containers) are
identical before and after.  The hypotheses are exactly what a successful
`translate_dialogue` run guarantees (C1) plus the nonemptiness of each Line,
which `format_dialogue`'s `t[0]` has already enforced on any block that
reaches the write-back. -/
theorem write_back_replaces_only_line_text (dl : DialogueB) (trans : Json) (items : List Json)
    (hitems : jsonElems trans = some items)
    (hsh : List.Forall₂ (fun it sp => ∃ sx, jsonElems it = some sx ∧ sx.length = sp.text.length) items dl)
    (hne : ∀ sp ∈ dl, ∀ l ∈ sp.text, l ≠ []) :
    ∃ dl', write_back dl trans = some dl'
      ∧ dl'.length = dl.length
      ∧ List.Forall₂ (fun sp sp' =>
          (sp' : RawSpeech).character = sp.character
          ∧ sp'.text.length = sp.text.length
          ∧ List.Forall₂ (fun l l' => (l' : List Json).length = l.length ∧ l'.tail = l.tail)
              sp.text sp'.text) dl dl' := by
  obtain ⟨dl', hw, hf⟩ := write_speeches_spec items dl hsh hne
  refine ⟨dl', ?_, (hf.length_eq).symm, hf⟩
  simp only [write_back, Option.bind_eq_bind, hitems, Option.some_bind]
  exact hw

/-- Witness for C5 on a one-speech, one-line block and the result
`[["y"]]`. -/
theorem write_back_replaces_only_line_text_witness :
    ∃ dl', write_back exC5dl exC5trans = some dl'
      ∧ dl'.length = exC5dl.length
      ∧ List.Forall₂ (fun sp sp' =>
          (sp' : RawSpeech).character = sp.character
          ∧ sp'.text.length = sp.text.length
          ∧ List.Forall₂ (fun l l' => (l' : List Json).length = l.length ∧ l'.tail = l.tail)
              sp.text sp'.text) exC5dl dl' := by
  refine write_back_replaces_only_line_text exC5dl exC5trans [Json.arr [Json.str "y".toList]] rfl
    (List.Forall₂.cons ⟨[Json.str "y".toList], rfl, rfl⟩ List.Forall₂.nil) ?_
  intro sp hsp l hl
  simp only [exC5dl, List.mem_singleton] at hsp
  subst hsp
  simp only [List.mem_singleton] at hl
  subst hl
  simp

/-! ## C8: what the Corpus Summarizer receives -/

/-- C8 (amended): the Corpus Summarizer's call receives the corpus reduced
to a list of *per-file* lists: one top-level entry per File, whose inner
list holds one `{character: line_text}` entry per spoken line of that file's
blocks, in document order.  Flattening the received value yields the flat
corpus reduction the spec describes, but the flattening is not performed by
the source. -/
theorem summarizer_input_per_file (doc : Document) (l : List (List (Str × Json)))
    (h : summarizer_input doc = some l) :
    l.length = doc.files.length ∧ corpus_flat_spec doc = some l.flatten := by
  constructor
  · exact (mapM_option_forall₂ data_summary doc.files l h).length_eq.symm
  · unfold corpus_flat_spec
    unfold summarizer_input at h
    revert l
    induction doc.files with
    | nil =>
      intro l h
      rw [List.mapM_nil] at h
      cases h
      rfl
    | cons f fs ih =>
      intro l h
      rw [List.mapM_cons] at h
      cases hf : data_summary f with
      | none => rw [hf] at h; cases h
      | some a =>
        rw [hf] at h
        cases hfs : fs.mapM data_summary with
        | none => rw [hfs] at h; cases h
        | some as =>
          rw [hfs] at h
          cases h
          have hfl := ih as hfs
          simp only [List.flatMap_cons]
          rw [List.mapM_append]
          unfold data_summary at hf
          rw [hf, hfl]
          simp

/-- Witness for C8 (amended) at the two-file document `exDoc`. -/
theorem summarizer_input_per_file_witness :
    summarizer_input exDoc = some exC8nested
    ∧ exC8nested.length = exDoc.files.length
    ∧ corpus_flat_spec exDoc = some exC8nested.flatten :=
  ⟨rfl, (summarizer_input_per_file exDoc exC8nested rfl).1,
        (summarizer_input_per_file exDoc exC8nested rfl).2⟩

/-- Counterexample to C8 as stated: for the two-file document `exDoc` with
five spoken lines, the summarizer receives a *two*-element list (one entry
per file, each a whole per-file list), not a single flat five-element list
of single-entry mappings. -/
theorem summarizer_input_counterexample :
    summarizer_input exDoc = some exC8nested
    ∧ ((summarizer_input exDoc).map List.length) = some 2
    ∧ ((corpus_flat_spec exDoc).map List.length) = some 5
    ∧ (2 : Nat) ≠ 5 := by
  refine ⟨rfl, rfl, rfl, ?_⟩
  decide

/-! ## C7: cumulative cost accounting -/

theorem prefixSums_length (b : ℤ) : ∀ l : List ℤ, (prefixSums b l).length = l.length := by
  intro l
  induction l generalizing b with
  | nil => rfl
  | cons c cs ih => simp [prefixSums, ih]

theorem prefixSums_append (xs : List ℤ) : ∀ (b : ℤ) (ys : List ℤ),
    prefixSums b (xs ++ ys) = prefixSums b xs ++ prefixSums (b + xs.sum) ys := by
  induction xs with
  | nil => intro b ys; simp [prefixSums]
  | cons x xs ih =>
    intro b ys
    simp only [List.cons_append, prefixSums, List.sum_cons]
    rw [show xs.append ys = xs ++ ys from rfl, ih (b + x) ys, add_assoc]

theorem prefixSums_get : ∀ (l : List ℤ) (b : ℤ) (k : Nat) (hk : k < (prefixSums b l).length),
    (prefixSums b l).get ⟨k, hk⟩ = b + (l.take k).sum := by
  intro l
  induction l with
  | nil => intro b k hk; cases hk
  | cons c cs ih =>
    intro b k hk
    cases k with
    | zero => simp [prefixSums]
    | succ k =>
      simp only [prefixSums, List.get_cons_succ, List.take_succ_cons, List.sum_cons]
      rw [ih (b + c) k (by simpa [prefixSums_length] using Nat.lt_of_succ_lt_succ (by simpa [prefixSums_length] using hk))]
      ring

/-- The cost a successful `translate_dialogue` returns is exactly the sum of
the costs of the calls it issued. -/
theorem translate_dialogue_cost (oracle : Nat → CallOutcome) (loads : Str → Option Json)
    (summary : Json) (previous : List (List Speech)) (dialogue : List Speech)
    (r : RunResult × List CallRecord) (parsed : Json) (c : ℤ)
    (h : translate_dialogue oracle loads summary previous dialogue = some r)
    (hres : r.1 = .result parsed c) : c = okCostSum r.2 := by
  obtain ⟨terms, styles, guide, _, _, _, hreq⟩ :=
    translate_dialogue_eq oracle loads summary previous dialogue r h
  rw [hreq] at hres ⊢
  have := translate_loop_result_cost oracle loads dialogue _ _ 10 _ 0 0 parsed c hres
  simpa using this

/-- Per-file block loop invariant: on the success path, the final cost is
the entry cost plus the sum of all calls' costs of all blocks processed; the
costs printed at line 187 are the running prefix sums; one log per block. -/
theorem run_blocks_spec (oracle : Nat → Nat → CallOutcome) (loads : Str → Option Json)
    (summary : Json) :
    ∀ (rest done : List DialogueB) (idx : Nat) (cost : ℤ) (dialogues' : List DialogueB) (cost' : ℤ),
      (run_blocks oracle loads summary done rest idx cost).1 = .ok dialogues' cost' →
      cost' = cost + (((run_blocks oracle loads summary done rest idx cost).2.2).map okCostSum).sum
      ∧ (run_blocks oracle loads summary done rest idx cost).2.1
          = prefixSums cost (((run_blocks oracle loads summary done rest idx cost).2.2).map okCostSum)
      ∧ ((run_blocks oracle loads summary done rest idx cost).2.2).length = rest.length := by
  intro rest
  induction rest with
  | nil =>
    intro done idx cost dialogues' cost' h
    simp only [run_blocks] at h ⊢
    cases h
    simp [prefixSums]
  | cons dl rest ih =>
    intro done idx cost dialogues' cost' h
    cases hfd : format_dialogue dl with
    | none =>
      have hrun : run_blocks oracle loads summary done (dl :: rest) idx cost = (.crash, [cost], []) := by
        simp only [run_blocks]
        rw [hfd]
      rw [hrun] at h
      cases h
    | some formatted =>
      cases hctx : (done.drop (done.length - 3)).mapM format_dialogue with
      | none =>
        have hrun : run_blocks oracle loads summary done (dl :: rest) idx cost = (.crash, [cost], []) := by
          simp only [run_blocks]
          rw [hfd]; dsimp only; rw [hctx]
        rw [hrun] at h
        cases h
      | some context =>
        cases htd : translate_dialogue (oracle (idx + 1)) loads summary context formatted with
        | none =>
          have hrun : run_blocks oracle loads summary done (dl :: rest) idx cost = (.crash, [cost], []) := by
            simp only [run_blocks]
            rw [hfd]; dsimp only; rw [hctx]; dsimp only; rw [htd]
          rw [hrun] at h
          cases h
        | some rl =>
          obtain ⟨res, log⟩ := rl
          cases res with
          | exitFail =>
            have hrun : run_blocks oracle loads summary done (dl :: rest) idx cost = (.exitFail, [cost], [log]) := by
              simp only [run_blocks]
              rw [hfd]; dsimp only; rw [hctx]; dsimp only; rw [htd]
            rw [hrun] at h
            cases h
          | exitClean =>
            have hrun : run_blocks oracle loads summary done (dl :: rest) idx cost = (.exitClean, [cost], [log]) := by
              simp only [run_blocks]
              rw [hfd]; dsimp only; rw [hctx]; dsimp only; rw [htd]
            rw [hrun] at h
            cases h
          | result parsed tcost =>
            cases hwb : write_back dl parsed with
            | none =>
              have hrun : run_blocks oracle loads summary done (dl :: rest) idx cost = (.crash, [cost], [log]) := by
                simp only [run_blocks]
                rw [hfd]; dsimp only; rw [hctx]; dsimp only; rw [htd]; dsimp only; rw [hwb]
              rw [hrun] at h
              cases h
            | some dl2 =>
              have hrun : run_blocks oracle loads summary done (dl :: rest) idx cost
                  = ((run_blocks oracle loads summary (done ++ [dl2]) rest (idx + 1) (cost + tcost)).1,
                     cost :: (run_blocks oracle loads summary (done ++ [dl2]) rest (idx + 1) (cost + tcost)).2.1,
                     log :: (run_blocks oracle loads summary (done ++ [dl2]) rest (idx + 1) (cost + tcost)).2.2) := by
                simp only [run_blocks]
                rw [hfd]; dsimp only; rw [hctx]; dsimp only; rw [htd]; dsimp only; rw [hwb]
              rw [hrun] at h ⊢
              simp only at h
              have htcost : tcost = okCostSum log :=
                translate_dialogue_cost (oracle (idx + 1)) loads summary context formatted
                  (RunResult.result parsed tcost, log) parsed tcost htd rfl
              obtain ⟨hc, hrep, hlen⟩ := ih (done ++ [dl2]) (idx + 1) (cost + tcost) dialogues' cost' h
              refine ⟨?_, ?_, ?_⟩
              · rw [hc, htcost]
                simp only [List.map_cons, List.sum_cons]
                ring
              · simp only [List.map_cons, prefixSums]
                rw [← htcost, hrep]
              · simp [hlen]

/-- File loop invariant: on the success path the final cost is the entry
cost plus all blocks' call costs, and the printed costs are the running
prefix sums. -/
theorem run_files_spec (oracle : Nat → Nat → CallOutcome) (loads : Str → Option Json)
    (summary : Json) :
    ∀ (fs : List DFile) (idx : Nat) (cost : ℤ) (files' : List DFile) (costF : ℤ),
      (run_files oracle loads summary fs idx cost).1 = .inl (some (files', costF)) →
      costF = cost + (((run_files oracle loads summary fs idx cost).2.2).map okCostSum).sum
      ∧ (run_files oracle loads summary fs idx cost).2.1
          = prefixSums cost (((run_files oracle loads summary fs idx cost).2.2).map okCostSum) := by
  intro fs
  induction fs with
  | nil =>
    intro idx cost files' costF h
    simp only [run_files] at h ⊢
    cases h
    simp [prefixSums]
  | cons data fs ih =>
    intro idx cost files' costF h
    cases hds : data_summary data with
    | none =>
      have hrun : run_files oracle loads summary (data :: fs) idx cost = (.inl none, [], []) := by
        simp only [run_files]
        rw [hds]
      rw [hrun] at h
      cases h
    | some ds0 =>
      rcases hrb : run_blocks oracle loads summary [] data.dialogues idx cost with ⟨br, rep_b, logs_b⟩
      cases br with
      | crash =>
        have hrun : run_files oracle loads summary (data :: fs) idx cost = (.inr .crash, rep_b, logs_b) := by
          simp only [run_files]
          rw [hds]; dsimp only; rw [hrb]
        rw [hrun] at h
        cases h
      | exitFail =>
        have hrun : run_files oracle loads summary (data :: fs) idx cost = (.inr .exitFail, rep_b, logs_b) := by
          simp only [run_files]
          rw [hds]; dsimp only; rw [hrb]
        rw [hrun] at h
        cases h
      | exitClean =>
        have hrun : run_files oracle loads summary (data :: fs) idx cost = (.inr .exitClean, rep_b, logs_b) := by
          simp only [run_files]
          rw [hds]; dsimp only; rw [hrb]
        rw [hrun] at h
        cases h
      | ok d' c' =>
        have hrun : run_files oracle loads summary (data :: fs) idx cost
            = (match (run_files oracle loads summary fs (idx + data.dialogues.length) c').1 with
               | .inl (some (fl, cf)) =>
                   (.inl (some (DFile.mk d' :: fl, cf)),
                    rep_b ++ (run_files oracle loads summary fs (idx + data.dialogues.length) c').2.1,
                    logs_b ++ (run_files oracle loads summary fs (idx + data.dialogues.length) c').2.2)
               | other =>
                   (other,
                    rep_b ++ (run_files oracle loads summary fs (idx + data.dialogues.length) c').2.1,
                    logs_b ++ (run_files oracle loads summary fs (idx + data.dialogues.length) c').2.2)) := by
          simp only [run_files]
          rw [hds]; dsimp only; rw [hrb]
        obtain ⟨hcb, hrepb, _⟩ := run_blocks_spec oracle loads summary data.dialogues [] idx cost d' c' (by rw [hrb])
        rw [hrb] at hcb hrepb
        simp only at hcb hrepb
        cases hF : (run_files oracle loads summary fs (idx + data.dialogues.length) c').1 with
        | inr b2 =>
          rw [hrun, hF] at h
          cases h
        | inl o =>
          cases o with
          | none =>
            rw [hrun, hF] at h
            cases h
          | some p =>
            obtain ⟨fl, cf⟩ := p
            rw [hrun, hF] at h ⊢
            simp only at h ⊢
            obtain ⟨hfiles, hcost⟩ : files' = DFile.mk d' :: fl ∧ costF = cf := by
              cases h
              exact ⟨rfl, rfl⟩
            obtain ⟨hcf, hrepf⟩ := ih (idx + data.dialogues.length) c' fl cf hF
            constructor
            · rw [hcost, hcf, hcb]
              simp only [List.map_append, List.sum_append]
              ring
            · rw [hrepf, hrepb, hcb]
              simp only [List.map_append]
              rw [prefixSums_append]
            

/-- C7: on a completed run, the cost printed at the start of each block's
iteration (the value any "after block k" report shows) equals the one-time
summary and term-translation costs plus the call costs — including failed
and shape-mismatched attempts — of all fully processed earlier blocks; the
final accumulated cost adds every block's calls. -/
theorem make_translation_cost_accounting (sumOut termOut : CallOutcome)
    (oracle : Nat → Nat → CallOutcome) (loads : Str → Option Json) (doc : Document)
    (doc' : Document) (final : ℤ) (rs rt : Response)
    (h : (make_translation sumOut termOut oracle loads doc).1 = .done doc' final)
    (hs : sumOut = .ok rs) (ht : termOut = .ok rt) :
    (make_translation sumOut termOut oracle loads doc).2.1
      = prefixSums (rs.cost + rt.cost)
          (((make_translation sumOut termOut oracle loads doc).2.2).map okCostSum)
    ∧ final = rs.cost + rt.cost
        + (((make_translation sumOut termOut oracle loads doc).2.2).map okCostSum).sum
    ∧ ∀ k (hk : k < (make_translation sumOut termOut oracle loads doc).2.1.length),
        (make_translation sumOut termOut oracle loads doc).2.1.get ⟨k, hk⟩
          = rs.cost + rt.cost
            + ((((make_translation sumOut termOut oracle loads doc).2.2).map okCostSum).take k).sum := by
  subst hs ht
  cases hsi : summarizer_input doc with
  | none =>
    have hrun : make_translation (.ok rs) (.ok rt) oracle loads doc = (.crash, [], []) := by
      simp only [make_translation]
      rw [hsi]
    rw [hrun] at h
    cases h
  | some ds =>
    cases hp1 : json_parse loads rs.content with
    | none =>
      have hrun : make_translation (.ok rs) (.ok rt) oracle loads doc = (.crash, [], []) := by
        simp only [make_translation]
        rw [hsi]; dsimp only; rw [hp1]
      rw [hrun] at h
      cases h
    | some summary0 =>
      cases hterms : jGet summary0 "terms".toList with
      | none =>
        have hrun : make_translation (.ok rs) (.ok rt) oracle loads doc = (.crash, [], []) := by
          simp only [make_translation]
          rw [hsi]; dsimp only; rw [hp1]; dsimp only; rw [hterms]
        rw [hrun] at h
        cases h
      | some terms0 =>
        cases hp2 : json_parse loads rt.content with
        | none =>
          have hrun : make_translation (.ok rs) (.ok rt) oracle loads doc = (.crash, [], []) := by
            simp only [make_translation]
            rw [hsi]; dsimp only; rw [hp1]; dsimp only; rw [hterms]; dsimp only; rw [hp2]
          rw [hrun] at h
          cases h
        | some termsJson =>
          rcases hrf : run_files oracle loads (jSet summary0 "terms".toList termsJson) doc.files 0
              (rs.cost + rt.cost) with ⟨fr, reports, logs⟩
          cases fr with
          | inl o =>
            cases o with
            | none =>
              have hrun : make_translation (.ok rs) (.ok rt) oracle loads doc = (.crash, reports, logs) := by
                simp only [make_translation]
                rw [hsi]; dsimp only; rw [hp1]; dsimp only; rw [hterms]; dsimp only; rw [hp2]
                dsimp only
                rw [hrf]
              rw [hrun] at h
              cases h
            | some p =>
              obtain ⟨files', costF⟩ := p
              have hrun : make_translation (.ok rs) (.ok rt) oracle loads doc
                  = (.done ⟨files'⟩ costF, reports, logs) := by
                simp only [make_translation]
                rw [hsi]; dsimp only; rw [hp1]; dsimp only; rw [hterms]; dsimp only; rw [hp2]
                dsimp only
                rw [hrf]
              rw [hrun] at h ⊢
              simp only at h ⊢
              obtain ⟨hdoc, hfin⟩ : doc' = ⟨files'⟩ ∧ final = costF := by
                cases h
                exact ⟨rfl, rfl⟩
              obtain ⟨hcf, hrep⟩ := run_files_spec oracle loads (jSet summary0 "terms".toList termsJson)
                doc.files 0 (rs.cost + rt.cost) files' costF (by rw [hrf])
              rw [hrf] at hcf hrep
              simp only at hcf hrep
              subst hrep
              refine ⟨rfl, ?_, ?_⟩
              · rw [hfin, hcf]
              · intro k hk
                exact prefixSums_get (List.map okCostSum logs) (rs.cost + rt.cost) k hk
          | inr b2 =>
            cases b2 with
            | ok d c =>
              have hrun : make_translation (.ok rs) (.ok rt) oracle loads doc = (.crash, reports, logs) := by
                simp only [make_translation]
                rw [hsi]; dsimp only; rw [hp1]; dsimp only; rw [hterms]; dsimp only; rw [hp2]
                dsimp only
                rw [hrf]
              rw [hrun] at h
              cases h
            | crash =>
              have hrun : make_translation (.ok rs) (.ok rt) oracle loads doc = (.crash, reports, logs) := by
                simp only [make_translation]
                rw [hsi]; dsimp only; rw [hp1]; dsimp only; rw [hterms]; dsimp only; rw [hp2]
                dsimp only
                rw [hrf]
              rw [hrun] at h
              cases h
            | exitFail =>
              have hrun : make_translation (.ok rs) (.ok rt) oracle loads doc = (.exitFail, reports, logs) := by
                simp only [make_translation]
                rw [hsi]; dsimp only; rw [hp1]; dsimp only; rw [hterms]; dsimp only; rw [hp2]
                dsimp only
                rw [hrf]
              rw [hrun] at h
              cases h
            | exitClean =>
              have hrun : make_translation (.ok rs) (.ok rt) oracle loads doc = (.exitClean, reports, logs) := by
                simp only [make_translation]
                rw [hsi]; dsimp only; rw [hp1]; dsimp only; rw [hterms]; dsimp only; rw [hp2]
                dsimp only
                rw [hrf]
              rw [hrun] at h
              cases h

/-- Witness for C7 at the two-file document `exDoc` with one failed
(mismatched) attempt on the first block: final cost 44 = 10 + 20 + (7 + 1)
+ 2 + 4, and the printed costs are the prefix sums. -/
theorem make_translation_cost_accounting_witness :
    (make_translation exSumOut exTermOut exBlockOracle loads0 exDoc).1 = .done exDocOut 44
    ∧ (make_translation exSumOut exTermOut exBlockOracle loads0 exDoc).2.1
        = prefixSums (10 + 20)
            (((make_translation exSumOut exTermOut exBlockOracle loads0 exDoc).2.2).map okCostSum)
    ∧ (44 : ℤ) = 10 + 20
        + (((make_translation exSumOut exTermOut exBlockOracle loads0 exDoc).2.2).map okCostSum).sum :=
  ⟨rfl,
   (make_translation_cost_accounting exSumOut exTermOut exBlockOracle loads0 exDoc
      exDocOut 44 ⟨_, 10⟩ ⟨_, 20⟩ rfl rfl rfl).1,
   (make_translation_cost_accounting exSumOut exTermOut exBlockOracle loads0 exDoc
      exDocOut 44 ⟨_, 10⟩ ⟨_, 20⟩ rfl rfl rfl).2.1⟩
